import Mathlib

/- Verification development for the DeepWiki MCP server (src/server.py).

The file shallowly embeds the parts of the program that the specification
talks about: the resilient HTTP client (`_request` with its tenacity retry
decorator), the poll engine (`poll_until_done`), the task store and its
eviction sweep (`cleanup_old_tasks`, `deepwiki_query`, `deepwiki_check_task`),
the Mermaid diagram generator (`MermaidGenerator`), and the two response
extractors (`extract_codemap`, `_extract_answer_from_response`).

Python dictionaries are modelled as association lists in insertion order
(keys of the task store are unique), `time.time()` timestamps as `Int`,
dynamically typed JSON-ish values as the inductive `PyValue`, and raised
exceptions as `Except PyExc`.  External library behaviour that the program
calls into is modelled at its interface: `json.loads` is an arbitrary
parameter of type `String → Except PyExc PyValue`, `re.sub(r'\n{3,}', ...)`
is the replacement of every maximal run of three-or-more newlines, and
pydantic validation of the declared models is field-by-field checking. -/

namespace DeepWiki

/-! ## Generic character-list helpers used to state substring facts -/
/-- Boolean test that the first list is a leading segment of the second. -/
def listIsPre : List Char → List Char → Bool
  | [], _ => true
  | _ :: _, [] => false
  | a :: as, b :: bs => (a == b) && listIsPre as bs

/-- Boolean substring test: `pat` occurs contiguously inside `l`. -/
def listHasSub (pat : List Char) : List Char → Bool
  | [] => pat.isEmpty
  | b :: bs => listIsPre pat (b :: bs) || listHasSub pat bs

/-! ## Model of dynamically typed Python values and exceptions

`PyValue` models the JSON-ish values the server passes around (`None`,
booleans, ints, strings, lists, dicts in insertion order).  `PyExc` models
the exception classes that can cross the boundaries the claims talk about. -/
inductive PyValue where
  | pnone
  | pbool (b : Bool)
  | pint (n : Int)
  | pstr (s : String)
  | plist (xs : List PyValue)
  | pdict (entries : List (String × PyValue))

inductive PyExc where
  | valueError (msg : String)
  | httpTimeout
  | httpNetError (msg : String)
  | attributeError
  | typeError
  | indexError
  | jsonDecodeError
  | validationError
  | retryError

/-- Python truthiness of a value (`if not x: ...`). -/
def PyValue.truthy : PyValue → Bool
  | .pnone => false
  | .pbool b => b
  | .pint n => n != 0
  | .pstr s => s != ""
  | .plist xs => !xs.isEmpty
  | .pdict es => !es.isEmpty

/-- Model of `x.get(key, default)`: dictionary lookup with a default; calling
`.get` on a non-dict raises `AttributeError`. -/
def pyGet (v : PyValue) (k : String) (dflt : PyValue) : Except PyExc PyValue :=
  match v with
  | .pdict es => .ok ((es.lookup k).getD dflt)
  | _ => .error .attributeError

/-- Model of `x[-1]`: last element of a list (or last character of a string);
raises on empty sequences and on non-sequences. -/
def pyLastItem : PyValue → Except PyExc PyValue
  | .plist xs =>
      match xs.getLast? with
      | some x => .ok x
      | none => .error .indexError
  | .pstr s =>
      match s.data.getLast? with
      | some c => .ok (.pstr ⟨[c]⟩)
      | none => .error .indexError
  | _ => .error .typeError

/-- Model of `for x in v`: the sequence of iterates (list elements, string
characters, dict keys); raises `TypeError` on non-iterables. -/
def pyIter : PyValue → Except PyExc (List PyValue)
  | .plist xs => .ok xs
  | .pstr s => .ok (s.data.map (fun c => .pstr ⟨[c]⟩))
  | .pdict es => .ok (es.map (fun e => .pstr e.1))
  | _ => .error .typeError

/-! ## Codemap data model (`CodemapLocation`, `CodemapTrace`, `Codemap`)

Mirrors the pydantic models in src/server.py; `metadata`/`workspace_info`
have empty-dict defaults there and are kept as raw dict entries here. -/
structure CodemapLocation where
  id : String
  line_content : String
  path : String
  line_number : Int
  title : String
  description : String

structure CodemapTrace where
  id : String
  title : String
  description : String
  locations : List CodemapLocation

structure Codemap where
  title : String
  traces : List CodemapTrace
  description : String
  metadata : List (String × PyValue) := []
  workspace_info : List (String × PyValue) := []

/-- Pydantic-style extraction of a required `str` field. -/
def asStr : PyValue → Except PyExc String
  | .pstr s => .ok s
  | _ => .error .validationError

/-- Pydantic-style extraction of a required `int` field. -/
def asInt : PyValue → Except PyExc Int
  | .pint n => .ok n
  | _ => .error .validationError

/-- Pydantic-style extraction of a dict-valued field. -/
def asDictEntries : PyValue → Except PyExc (List (String × PyValue))
  | .pdict es => .ok es
  | _ => .error .validationError

/-- Field lookup for validation: a missing key behaves like `None` (both
fail the typed extraction for required fields). -/
def fieldOf (es : List (String × PyValue)) (k : String) : PyValue :=
  (es.lookup k).getD .pnone

/-- Model of `CodemapLocation(**data)` validation. -/
def locationOfPy : PyValue → Except PyExc CodemapLocation
  | .pdict es => do
      let i ← asStr (fieldOf es "id")
      let lc ← asStr (fieldOf es "line_content")
      let p ← asStr (fieldOf es "path")
      let ln ← asInt (fieldOf es "line_number")
      let t ← asStr (fieldOf es "title")
      let d ← asStr (fieldOf es "description")
      return ⟨i, lc, p, ln, t, d⟩
  | _ => .error .validationError

/-- Model of `CodemapTrace(**data)` validation. -/
def traceOfPy : PyValue → Except PyExc CodemapTrace
  | .pdict es => do
      let i ← asStr (fieldOf es "id")
      let t ← asStr (fieldOf es "title")
      let d ← asStr (fieldOf es "description")
      let locsRaw ←
        match fieldOf es "locations" with
        | .plist xs => Except.ok xs
        | _ => Except.error PyExc.validationError
      let locs ← locsRaw.mapM locationOfPy
      return ⟨i, t, d, locs⟩
  | _ => .error .validationError

/-- Model of `Codemap(**data)` validation (extra keys are ignored;
`metadata`/`workspace_info` default to empty dicts). -/
def codemapOfPy : PyValue → Except PyExc Codemap
  | .pdict es => do
      let t ← asStr (fieldOf es "title")
      let tracesRaw ←
        match fieldOf es "traces" with
        | .plist xs => Except.ok xs
        | _ => Except.error PyExc.validationError
      let traces ← tracesRaw.mapM traceOfPy
      let d ← asStr (fieldOf es "description")
      let md ←
        match es.lookup "metadata" with
        | some v => asDictEntries v
        | none => Except.ok []
      let wi ←
        match es.lookup "workspace_info" with
        | some v => asDictEntries v
        | none => Except.ok []
      return ⟨t, traces, d, md, wi⟩
  | _ => .error .validationError

/-- Model of Python `c in s` for a one-character needle. -/
def pyInStr (c : Char) (s : String) : Bool := s.data.contains c

/-- Model of Python `s[:n]` (slices count code points). -/
def pyTake (s : String) (n : Nat) : String := ⟨s.data.take n⟩

/-! ## Mermaid diagram generator (`MermaidGenerator`)

`MermaidGenerator.generate` builds a list of output lines and joins them
with newlines.  We embed the line list (`generateLines`) and the join
(`generate`).  `str(line_number)` is modelled by `intRepr` below. -/
/-- Decimal digits of `n`, most significant first (`fuel`-structured so that
closed instances evaluate by `rfl`; `fuel ≥ n` suffices). -/
def natDigitsAux : Nat → Nat → List Char
  | 0, _ => []
  | fuel + 1, n => if n = 0 then [] else natDigitsAux fuel (n / 10) ++ [Nat.digitChar (n % 10)]

/-- Model of Python `str(n)` for a natural number. -/
def natRepr (n : Nat) : String := if n = 0 then "0" else ⟨natDigitsAux (n + 1) n⟩

/-- Model of Python `str(n)` for an int. -/
def intRepr (n : Int) : String :=
  if n < 0 then "-" ++ natRepr (-n).toNat else natRepr n.toNat

namespace MermaidGenerator

/-- The fixed 8-entry (fill, stroke) palette. -/
def TRACE_COLORS : List (String × String) :=
  [("#e8f5e9", "#4caf50"), ("#e3f2fd", "#2196f3"), ("#fff3e0", "#ff9800"),
   ("#f3e5f5", "#9c27b0"), ("#fff8e1", "#ffc107"), ("#fce4ec", "#e91e63"),
   ("#e0f2f1", "#009688"), ("#fbe9e7", "#ff5722")]

/-- Sanitize string for use as Mermaid ID: every non-alphanumeric character
becomes `'_'` (`Char.isAlphanum` models `str.isalnum`, exact on ASCII). -/
def sanitize_id (s : String) : String :=
  ⟨s.data.map (fun c => if c.isAlphanum then c else '_')⟩

/-- Escape string for use in Mermaid labels: `'"'` becomes `#quot;` and a
newline becomes a space (the two `str.replace` calls fused into one pass,
which is equivalent because `#quot;` contains neither pattern). -/
def escape_label (s : String) : String :=
  ⟨s.data.flatMap (fun c =>
    if c = '"' then "#quot;".data else if c = '\n' then [' '] else [c])⟩

/-- Get filename from path: `path.split('/')[-1] if '/' in path else path`.
The last element of `split('/')` is exactly the suffix after the final
`'/'`, computed here directly at the character level. -/
def short_path (path : String) : String :=
  if pyInStr '/' path then
    ⟨(path.data.reverse.takeWhile (fun c => c != '/')).reverse⟩
  else path

/-- The `subgraph` header line emitted for a trace. -/
def subgraphLine (t : CodemapTrace) : String :=
  "    subgraph " ++ sanitize_id ("trace_" ++ t.id) ++ "[\"" ++ t.id ++ ". "
    ++ escape_label t.title ++ "\"]"

/-- The node line emitted for a location (the label's `\n` is a literal
backslash-n, exactly as the source f-string writes between the title and the filename). -/
def nodeLine (loc : CodemapLocation) : String :=
  "        " ++ sanitize_id ("loc_" ++ loc.id) ++ "[\"" ++ escape_label loc.title
    ++ "\\n" ++ short_path loc.path ++ ":" ++ intRepr loc.line_number ++ "\"]"

/-- A solid intra-trace edge line. -/
def solidEdgeLine (a b : CodemapLocation) : String :=
  "    " ++ sanitize_id ("loc_" ++ a.id) ++ " --> " ++ sanitize_id ("loc_" ++ b.id)

/-- A dashed inter-trace edge line. -/
def dashedEdgeLine (a b : CodemapLocation) : String :=
  "    " ++ sanitize_id ("loc_" ++ a.id) ++ " -.-> " ++ sanitize_id ("loc_" ++ b.id)

/-- A per-trace style line. -/
def styleLine (i : Nat) (t : CodemapTrace) : String :=
  let fs := TRACE_COLORS.getD (i % TRACE_COLORS.length) ("", "")
  "    style " ++ sanitize_id ("trace_" ++ t.id) ++ " fill:" ++ fs.1 ++ ",stroke:"
    ++ fs.2 ++ ",stroke-width:2px"

/-- All lines appended while processing one trace: blank separator, the
subgraph header, one node line per location, `end`, then the solid edges
between consecutive locations. -/
def traceBlock (t : CodemapTrace) : List String :=
  ["", subgraphLine t] ++ t.locations.map nodeLine ++ ["    end"]
    ++ (t.locations.zip t.locations.tail).map (fun ab => solidEdgeLine ab.1 ab.2)

/-- The dashed edge emitted for one consecutive pair of traces, when both
have at least one location: from the last location of the first to the
first location of the second. -/
def interPair (tt : CodemapTrace × CodemapTrace) : Option String :=
  match tt.1.locations.getLast?, tt.2.locations.head? with
  | some a, some b => some (dashedEdgeLine a b)
  | _, _ => none

/-- Dashed edges between consecutive traces whose location lists are both
non-empty. -/
def interTraceEdges (cm : Codemap) : List String :=
  (cm.traces.zip cm.traces.tail).filterMap interPair

/-- The full list of lines produced by `MermaidGenerator.generate`. -/
def generateLines (cm : Codemap) : List String :=
  ["flowchart TB"] ++ (cm.traces.map traceBlock).flatten ++ interTraceEdges cm
    ++ [""] ++ cm.traces.enum.map (fun it => styleLine it.1 it.2)

/-- Function `MermaidGenerator.generate`: the lines joined with `'\n'`. -/
def generate (cm : Codemap) : String :=
  String.intercalate "\n" (generateLines cm)

end MermaidGenerator

/-! ## `extract_codemap`

The whole body runs under `try/except Exception: return None`, modelled by
running the body in `Except PyExc` and collapsing any error to `none`.
`json.loads` is external; it is passed in as an arbitrary
`loads : String → Except PyExc PyValue`. -/
/-- Python equality test `x == "chunk"` (only a `str` can compare equal). -/
def pyEqStrChunk : PyValue → Bool
  | .pstr s => s == "chunk"
  | _ => false

/-- The `for chunk in response_data:` loop body of `extract_codemap`. -/
def extractLoop (loads : String → Except PyExc PyValue) :
    List PyValue → Except PyExc (Option Codemap)
  | [] => .ok none
  | chunk :: rest => do
      let t ← pyGet chunk "type" .pnone
      let d ← pyGet chunk "data" .pnone
      if pyEqStrChunk t && d.truthy then
        let data ← match d with
          | .pstr s => loads s
          | _ => Except.ok d
        let traces ← pyGet data "traces" .pnone
        if traces.truthy then do
          let cm ← codemapOfPy data
          return some cm
        else extractLoop loads rest
      else extractLoop loads rest

/-- Body of `extract_codemap` before the enclosing `try/except`. -/
def extractCodemapBody (loads : String → Except PyExc PyValue)
    (query_response : PyValue) : Except PyExc (Option Codemap) := do
  let queries ← pyGet query_response "queries" (.plist [])
  if !queries.truthy then return none
  let lastq ← pyLastItem queries
  let response_data ← pyGet lastq "response" (.plist [])
  if !response_data.truthy then return none
  let chunks ← pyIter response_data
  extractLoop loads chunks

/-- Function `extract_codemap`: any raised exception is caught and turned into `None`
(the source logs a warning first, a side effect not modelled). -/
def extract_codemap (loads : String → Except PyExc PyValue)
    (query_response : PyValue) : Option Codemap :=
  match extractCodemapBody loads query_response with
  | .ok r => r
  | .error _ => none

/-! ## `_extract_answer_from_response`

This function reads the formatted result's `queries` list, keeps `chunk`
items with string data that survive the preamble/progress filters, joins
them, collapses newline runs and strips.  It is embedded over a structured
projection of the document (only the fields it reads). -/
/-- The `data` of a response item as the extractor sees it: absent, a
string, or some non-string value. -/
inductive ChunkData where
  | absent
  | strv (s : String)
  | nonStr

/-- One element of a sub-query's `response` list. -/
structure RespItem where
  type_ : Option String
  data : ChunkData

/-- A sub-query as the answer extractor reads it. -/
structure AnswerQuery where
  response : List RespItem

/-- The formatted result document as the answer extractor reads it. -/
structure AnswerResult where
  queries : List AnswerQuery

/-- Model of Python `str.strip()` over `Char.isWhitespace`. -/
def pyStrip (s : String) : String :=
  ⟨((s.data.dropWhile Char.isWhitespace).reverse.dropWhile Char.isWhitespace).reverse⟩

/-- The fixed preamble phrases skipped by the extractor. -/
def skipPrePhrases : List String :=
  ["I\x27ll help", "Let me search", "I\x27ll search", "> Searching"]

/-- Model of Python `s.startswith(pre)`. -/
def pyStartsWith (s pre : String) : Bool := listIsPre pre.data s.data

/-- The filter applied to one response item: keep the (untrimmed) data of
`chunk`-typed string items whose stripped text is non-empty, does not start
with `">"`, and does not start with one of the preamble phrases. -/
def answerChunkFilter (it : RespItem) : Option String :=
  match it.type_, it.data with
  | some ty, .strv s =>
      if ty = "chunk" then
        let trimmed := pyStrip s
        if trimmed ≠ "" && !(pyStartsWith trimmed ">")
            && !(skipPrePhrases.any (fun p => pyStartsWith trimmed p)) then
          some s
        else none
      else none
  | _, _ => none

/-- Emit the pending newline run: a run of three or more newlines collapses
to exactly two, shorter runs pass through. -/
def flushRun (n : Nat) : List Char :=
  List.replicate (if 3 ≤ n then 2 else n) '\n'

/-- One pass over the characters carrying the length of the current newline
run; models `re.sub(r'\n{3,}', '\n\n', s)`, which replaces every maximal
run of three-or-more newlines by two. -/
def collapseAux : Nat → List Char → List Char
  | n, [] => flushRun n
  | n, c :: cs =>
      if c = '\n' then collapseAux (n + 1) cs
      else flushRun n ++ c :: collapseAux 0 cs

/-- Model of `re.sub(r'\n{3,}', '\n\n', s)`. -/
def collapseNewlineRuns (s : String) : String := ⟨collapseAux 0 s.data⟩

/-- Function `_extract_answer_from_response`. -/
def extractAnswer (result : AnswerResult) : String :=
  match result.queries.getLast? with
  | none => "No response data available."
  | some lastq =>
      if lastq.response.isEmpty then "No response data available."
      else
        let answer_chunks := lastq.response.filterMap answerChunkFilter
        if answer_chunks.isEmpty then "Response received but no readable text found."
        else pyStrip (collapseNewlineRuns (String.join answer_chunks))

/-! ## Resilient client: `DeepWikiClient._request` and its tenacity decorator

The network outcome of attempt `i` is supplied by an environment function
`outcomes : Nat → AttemptOutcome` (attempts are numbered from 1).  The body
of `_request` converts every `httpx` exception into a `ValueError`; the
tenacity decorator around it retries only when the exception leaving the
body satisfies `retry_if_exception_type((TimeoutException, NetworkError))`,
sleeping `wait_exponential(multiplier=1, min=2, max=10)` before each retry,
and stops after 3 attempts (raising `RetryError`, since `reraise` is unset). -/
/-- What the wire does on one attempt: a 2xx JSON payload, a non-2xx status
(which `raise_for_status` turns into `HTTPStatusError`), a timeout, or a
network error. -/
inductive AttemptOutcome where
  | ok (payload : PyValue)
  | httpStatus (code : Nat) (body : String)
  | timeout
  | netError (msg : String)

/-- The predicate `retry_if_exception_type((httpx.TimeoutException,
httpx.NetworkError))`. -/
def isRetryableExc : PyExc → Bool
  | .httpTimeout => true
  | .httpNetError _ => true
  | _ => false

/-- The body of `_request` (inside the decorator): classify the outcome and
raise `ValueError` for every error class. -/
def requestBody : AttemptOutcome → Except PyExc PyValue
  | .ok payload => .ok payload
  | .httpStatus code body =>
      if code = 429 then
        .error (.valueError "Rate limit exceeded. Please try again later.")
      else if 500 ≤ code then
        .error (.valueError ("Server error (" ++ natRepr code
          ++ "). Service may be unavailable."))
      else if code = 404 then
        .error (.valueError "Resource not found. Check query ID or repository name.")
      else
        .error (.valueError ("Request failed: " ++ body))
  | .timeout => .error (.valueError "Request timed out. Try \x27fast\x27 mode or simpler query.")
  | .netError msg => .error (.valueError ("Network error: " ++ msg))

/-- Backoff `wait_exponential(multiplier=1, min=2, max=10)` before retry number
`attempt` (tenacity clamps `multiplier * 2 ^ attempt` into `[min, max]`). -/
def waitExponential (attempt : Nat) : Nat := min 10 (max 2 (2 ^ attempt))

/-- The observable trace of one decorated call: the surfaced result, how
many attempts ran, and the backoff sleeps performed between attempts. -/
structure RetryTrace where
  result : Except PyExc PyValue
  attemptsMade : Nat
  sleeps : List Nat

/-- Tenacity's retry loop: run the body; on a retryable exception with
attempts remaining, sleep and try again; on a non-retryable exception,
surface it at once; when the attempt budget is exhausted on a retryable
exception, surface `RetryError`. -/
def tenacityGo (body : Nat → Except PyExc PyValue) (attempt : Nat) :
    Nat → RetryTrace
  | 0 => ⟨.error .retryError, attempt - 1, []⟩
  | fuel + 1 =>
      match body attempt with
      | .ok v => ⟨.ok v, attempt, []⟩
      | .error e =>
          if isRetryableExc e then
            if fuel = 0 then ⟨.error .retryError, attempt, []⟩
            else
              let rest := tenacityGo body (attempt + 1) fuel
              ⟨rest.result, rest.attemptsMade, waitExponential attempt :: rest.sleeps⟩
          else ⟨.error e, attempt, []⟩

/-- Method `DeepWikiClient._request` as decorated: `stop_after_attempt(3)` around
`requestBody` over the environment's per-attempt outcomes. -/
def _request (outcomes : Nat → AttemptOutcome) : RetryTrace :=
  tenacityGo (fun i => requestBody (outcomes i)) 1 3

/-! ## Poll engine: `DeepWikiClient.poll_until_done`

The remote status document returned by `get_query_status` on the i-th poll
(0-based) is supplied by `statusAt : Nat → StatusDoc`.  Each loop iteration
sleeps, fetches the document, and inspects the last sub-query's `state`. -/
/-- A sub-query entry of the status document, projected to the fields the
poll loop reads. -/
structure SubQuery where
  state : Option String
  error : Option String
  deriving Repr, DecidableEq

/-- The status document: its `queries` list. -/
structure StatusDoc where
  queries : List SubQuery
  deriving Repr, DecidableEq

/-- Result of the poll loop: the full document on `done`, a `ValueError`
message on `failed`, or timeout after the attempt ceiling (the source
formats `interval_ms * max_attempts / 1000` seconds into the timeout
message; we carry the two numbers instead of the float string). -/
inductive PollResult where
  | done (result : StatusDoc)
  | failed (msg : String)
  | timedOut (intervalMs maxAttempts : Nat)
  deriving Repr, DecidableEq

/-- Whether a poll result is the timeout error. -/
def PollResult.isTimeout : PollResult → Bool
  | .timedOut _ _ => true
  | _ => false

/-- The `for attempt in range(max_attempts)` loop, `i` polls already done,
`fuel` iterations remaining. -/
def pollAux (statusAt : Nat → StatusDoc) (intervalMs maxAttempts : Nat) :
    Nat → Nat → PollResult
  | _, 0 => .timedOut intervalMs maxAttempts
  | i, fuel + 1 =>
      let result := statusAt i
      match result.queries.getLast? with
      | some last_query =>
          match last_query.state with
          | some st =>
              if st = "done" then .done result
              else if st = "failed" then
                .failed ("Query failed: " ++ (last_query.error.getD "Query failed"))
              else pollAux statusAt intervalMs maxAttempts (i + 1) fuel
          | none => pollAux statusAt intervalMs maxAttempts (i + 1) fuel
      | none => pollAux statusAt intervalMs maxAttempts (i + 1) fuel

/-- Method `poll_until_done` with the configured interval and attempt ceiling. -/
def poll_until_done (statusAt : Nat → StatusDoc) (intervalMs maxAttempts : Nat) :
    PollResult :=
  pollAux statusAt intervalMs maxAttempts 0 maxAttempts

/-! ## Task store: `tasks`, `cleanup_old_tasks`, and the tool functions

The global `tasks` dict is modelled as an association list in insertion
order with unique keys; `del` is deletion by key, insertion of a fresh key
appends.  Timestamps (`time.time()`) are `Int` seconds. -/
/-- The formatted result payload built by `execute_query_background`
(projected to the fields `deepwiki_check_task` reads). -/
structure FormattedResult where
  query_id : String
  status : String
  question : String
  repos : List String
  mode : String
  queries : List AnswerQuery

/-- One record of the `tasks` dict. -/
structure TaskRec where
  status : String
  created_at : Int
  completed_at : Option Int
  result : Option FormattedResult
  error : Option String
  question : String
  repos : List String
  mode : String

/-- The task store: the `tasks` dict in insertion order. -/
abbrev Store : Type := List (String × TaskRec)

def MAX_TASKS : Nat := 100

def TASK_EXPIRY_HOURS : Int := 24

/-- The sort key of the capacity sweep: `key=lambda x: x[1]["created_at"]`. -/
def taskLe (a b : String × TaskRec) : Bool :=
  decide (a.2.created_at ≤ b.2.created_at)

/-- Function `cleanup_old_tasks`: delete every task with `created_at` strictly below
`now - 24*3600`; if more than `MAX_TASKS` remain, delete the oldest-by-
`created_at` records (Python's stable `sorted` is `mergeSort`) until the
ceiling is met; deleting keys from a dict keeps the remaining insertion
order, hence the final `filter`. -/
def cleanup_old_tasks (now : Int) (tasks : Store) : Store :=
  let expiry_threshold : Int := now - TASK_EXPIRY_HOURS * 3600
  let kept := tasks.filter (fun p => !decide (p.2.created_at < expiry_threshold))
  if MAX_TASKS < kept.length then
    let sorted_tasks := kept.mergeSort taskLe
    let to_remove := (sorted_tasks.take (kept.length - MAX_TASKS)).map (fun p => p.1)
    kept.filter (fun p => !(to_remove.contains p.1))
  else kept

/-- Return value of `deepwiki_query`: the validation-error text or the
task-started guidance text carrying the new task id. -/
inductive CreateOutcome where
  | invalidRepo (repo : String)
  | created (task_id : String)
  deriving DecidableEq

/-- Observable effect of one `deepwiki_query` call: what it returned, the
store it left behind, and whether it scheduled `execute_query_background`
(the only code path that performs network calls). -/
structure CreateEffect where
  outcome : CreateOutcome
  store : Store
  backgroundScheduled : Bool

/-- Tool `deepwiki_query`: validate each repo contains `'/'` (returning the
format error on the first offender, before any store mutation), then sweep,
then insert the new `pending` record (question truncated to 200 chars) and
schedule the background execution.  `new_task_id` stands for the generated
`deepwiki_{uuid}` identifier. -/
def deepwiki_query (question : String) (repos : List String) (mode : String)
    (now : Int) (new_task_id : String) (tasks : Store) : CreateEffect :=
  match repos.find? (fun r => !(pyInStr '/' r)) with
  | some r => ⟨.invalidRepo r, tasks, false⟩
  | none =>
      let tasks1 := cleanup_old_tasks now tasks
      let newTask : TaskRec :=
        ⟨"pending", now, none, none, none, pyTake question 200, repos, mode⟩
      ⟨.created new_task_id, tasks1 ++ [(new_task_id, newTask)], true⟩

/-- The `estimated_times` dict of the running branch, with its default. -/
def estimatedTimeFor (mode : String) : String :=
  if mode = "fast" then "5-15 seconds"
  else if mode = "deep" then "30-90 seconds"
  else if mode = "codemap" then "20-60 seconds"
  else "30-60 seconds"

/-- The pending-status message. -/
def pendingMsg (elapsed : Int) : String :=
  "Task pending (" ++ intRepr elapsed ++ " seconds elapsed).\n\nThe task is queued and will begin processing shortly. Queries typically complete in their estimated time based on mode. Return control to the user and inform them the task is initializing. Check status again when the user next interacts with you."

/-- The running-status message; it echoes the record's stored question. -/
def runningMsg (elapsed : Int) (task : TaskRec) : String :=
  "Task still running (" ++ intRepr elapsed ++ " seconds elapsed).\n\nMode: "
    ++ task.mode ++ " (estimated time: " ++ estimatedTimeFor task.mode
    ++ ")\nQuestion: " ++ task.question ++ "\nRepositories: "
    ++ String.intercalate ", " task.repos
    ++ "\n\nThe query is actively searching and analyzing code. Return control to the user and inform them the task is still in progress. Check status again when the user next interacts with you."

/-- The completed-status message around the extracted answer. -/
def completedMsg (r : FormattedResult) : String :=
  "✅ Query Completed Successfully\n\n**Question:** " ++ r.question
    ++ "\n**Repositories:** " ++ String.intercalate ", " r.repos
    ++ "\n**Mode:** " ++ r.mode ++ "\n\n---\n\n**Answer:**\n\n"
    ++ extractAnswer ⟨r.queries⟩ ++ "\n"

/-- The failed-status message (`{task['error']}` prints `None` when the
error field is absent). -/
def failedMsg (elapsed : Int) (task : TaskRec) : String :=
  "Status: failed (" ++ intRepr elapsed ++ " seconds elapsed)\n\nError: "
    ++ task.error.getD "None"
    ++ "\n\nThe query encountered an error. This might be due to:\n- Repository not indexed\n- Network issues\n- Invalid query parameters\n- API timeout\n\nTry:\n- Using \x27fast\x27 mode instead of \x27deep\x27\n- Simplifying your question\n- Checking if the repository exists and is public\n- Trying again in a moment"

/-- Tool `deepwiki_check_task`: sweep, then report on the task.  The completed
branch reads `task["result"]`; with no result recorded that line raises,
hence the `Except`.  Returns the reply and the store left behind. -/
def deepwiki_check_task (now : Int) (task_id : String) (tasks : Store) :
    Except PyExc String × Store :=
  let tasks1 := cleanup_old_tasks now tasks
  match tasks1.lookup task_id with
  | none =>
      (.ok ("Status: not_found - Task \x27" ++ task_id
        ++ "\x27 does not exist or has expired (tasks kept 24 hours, max 100 tasks stored)."),
       tasks1)
  | some task =>
      if task.status = "pending" then (.ok (pendingMsg (now - task.created_at)), tasks1)
      else if task.status = "running" then
        (.ok (runningMsg (now - task.created_at) task), tasks1)
      else if task.status = "completed" then
        match task.result with
        | some r => (.ok (completedMsg r), tasks1)
        | none => (.error .attributeError, tasks1)
      else if task.status = "failed" then
        (.ok (failedMsg (now - task.created_at) task), tasks1)
      else (.ok ("Status: unknown - Unexpected task state: " ++ task.status), tasks1)

/-! ## Claim C2: the poll engine -/
/-- The terminal marker of a status document: the `state` of the last
sub-query, when there is one. -/
def stateOf (d : StatusDoc) : Option String :=
  d.queries.getLast?.bind (fun q => q.state)

/-- A status document whose (single) sub-query is still running. -/
def runningDoc : StatusDoc := ⟨[⟨some "running", none⟩]⟩

/-- A status document whose (single) sub-query is done. -/
def doneDoc : StatusDoc := ⟨[⟨some "done", none⟩]⟩

/-- The remote sequence for the C2 counterexample: `running` once, then
`done` forever. -/
def c2seq : Nat → StatusDoc := fun i => if i = 0 then runningDoc else doneDoc

/-! ## Claim C8: the answer extractor -/
/-- Whether a character list contains three consecutive newlines. -/
def hasTriple : List Char → Bool
  | a :: b :: c :: rest =>
      (a == '\n' && b == '\n' && c == '\n') || hasTriple (b :: c :: rest)
  | _ => false

/-- The C8 input: the last sub-query's response holds three `chunk` items
with string data `"I'll help you"`, `"Actual answer."`, `"> searching"`. -/
def c8Input : AnswerResult :=
  ⟨[⟨[⟨some "chunk", .strv "I\x27ll help you"⟩,
      ⟨some "chunk", .strv "Actual answer."⟩,
      ⟨some "chunk", .strv "> searching"⟩]⟩]⟩

/-! ## Claim C9: `extract_codemap` returns `None` on malformed input -/
/-- A response document holding a single sub-query with a single response
chunk — the template used to exercise the per-chunk failure classes. -/
def mkChunkResp (chunk : PyValue) : PyValue :=
  .pdict [("queries", .plist [.pdict [("response", .plist [chunk])]])]

/-- A concrete two-task store with distinct keys. -/
def c3Store : Store :=
  [("a", ⟨"pending", 100, none, none, none, "q1", ["x/y"], "fast"⟩),
   ("b", ⟨"pending", 150000, none, none, none, "q2", ["x/y"], "fast"⟩)]

namespace MermaidGenerator

/-! ## Line classifiers for the generated Mermaid output

A generated line is a subgraph header iff it starts with `"    subgraph "`,
a node line iff it starts with eight spaces, and an edge statement iff it
starts with `"    loc_"`; edge statements are told apart by the arrow that
follows the (alphanumeric-and-underscore) source node name.  The lemmas
below verify that exactly the corresponding emitted lines satisfy each
classifier, for arbitrary codemap contents. -/
/-- Characters a sanitized identifier may consist of. -/
def sanChar (c : Char) : Bool := c.isAlphanum || c == '_'

/-- Line starts with `"    subgraph "`. -/
def isSubgraphL (s : String) : Bool := listIsPre "    subgraph ".data s.data

/-- Line starts with eight spaces (a node line inside a subgraph). -/
def isNodeL (s : String) : Bool := listIsPre "        ".data s.data

/-- For a line starting with `"    loc_"`, the arrow following the source
node name: `some true` for a solid `-->`, `some false` for a dashed
`-.->`. -/
def edgeKind (s : String) : Option Bool :=
  if listIsPre "    loc_".data s.data then
    let rest := (s.data.drop 4).dropWhile sanChar
    if listIsPre " --> ".data rest then some true
    else if listIsPre " -.-> ".data rest then some false
    else none
  else none

/-- Line is a solid intra-trace edge statement. -/
def isSolidL (s : String) : Bool := edgeKind s == some true

/-- Line is a dashed inter-trace edge statement. -/
def isDashedL (s : String) : Bool := edgeKind s == some false

end MermaidGenerator

/-- A concrete two-trace codemap exercising C5. -/
def c5cm : Codemap :=
  ⟨"T",
   [⟨"1", "First", "d", [⟨"a", "x", "p/q.py", 1, "A", "d"⟩, ⟨"b", "y", "q.py", 2, "B", "d"⟩]⟩,
    ⟨"2", "Second", "d", [⟨"c", "z", "r.py", 3, "C", "d"⟩]⟩],
   "D", [], []⟩

/-- The C6 counterexample codemap: a trace whose raw identifier contains a
quote character; the id is spliced into the subgraph label unescaped. -/
def c6cm : Codemap := ⟨"T", [⟨"a\"b", "Ti", "d", []⟩], "D", [], []⟩

/-! ## Claim C7: block and node labels -/
/-- A concrete location for the C7 input. -/
def c7loc : CodemapLocation := ⟨"p", "x", "f.py", 3, "L", "d"⟩

/-- A concrete trace whose id (`"z"`) differs from its ordinal position. -/
def c7trace : CodemapTrace := ⟨"z", "T2", "d", [c7loc]⟩

/-- The C7 codemap: one trace, one location. -/
def c7cm : Codemap := ⟨"T", [c7trace], "D", [], []⟩

theorem listIsPre_self_append (p r : List Char) : listIsPre p (p ++ r) = true := by
  induction p with
  | nil => rfl
  | cons a as ih => simp [listIsPre, ih]

theorem listHasSub_self_append (p r : List Char) : listHasSub p (p ++ r) = true := by
  cases p with
  | nil => cases r <;> simp [listHasSub, listIsPre, List.isEmpty]
  | cons a as =>
      have h := listIsPre_self_append (a :: as) r
      simp [listHasSub]
      exact Or.inl h

theorem listHasSub_cons_of {p l : List Char} (c : Char) (h : listHasSub p l = true) :
    listHasSub p (c :: l) = true := by
  simp [listHasSub, h]

theorem listHasSub_append_of {p l : List Char} (x : List Char) (h : listHasSub p l = true) :
    listHasSub p (x ++ l) = true := by
  induction x with
  | nil => simpa using h
  | cons a as ih => simpa [listHasSub] using Or.inr ih

/-- A pattern starting with `c₀` cannot start at a character different from `c₀`. -/
theorem listHasSub_cons_ne {c₀ : Char} {ps : List Char} {c : Char} (l : List Char)
    (hc : c ≠ c₀) : listHasSub (c₀ :: ps) (c :: l) = listHasSub (c₀ :: ps) l := by
  have : (c₀ == c) = false := by
    simp [beq_iff_eq]
    exact fun h => hc h.symm
  simp [listHasSub, listIsPre, this]

/-- Skipping a block none of whose characters can begin the pattern. -/
theorem listHasSub_skip_block {c₀ : Char} {ps : List Char} {A : List Char} (r : List Char)
    (h : ∀ a ∈ A, a ≠ c₀) :
    listHasSub (c₀ :: ps) (A ++ r) = listHasSub (c₀ :: ps) r := by
  induction A with
  | nil => rfl
  | cons a as ih =>
      have ha : a ≠ c₀ := h a (by simp)
      rw [List.cons_append, listHasSub_cons_ne _ ha]
      exact ih (fun x hx => h x (by simp [hx]))

theorem listHasSub_nil_of_ne_nil {c₀ : Char} {ps : List Char} :
    listHasSub (c₀ :: ps) [] = false := rfl

/-! ## Claim C1: retry policy of `_request` -/
/-- Every exception the body of `_request` raises is a `ValueError`, so the
decorator's `retry_if_exception_type((TimeoutException, NetworkError))`
predicate never matches it. -/
theorem requestBody_not_retryable (a : AttemptOutcome) (e : PyExc)
    (h : requestBody a = .error e) : isRetryableExc e = false := by
  cases a with
  | ok p => simp [requestBody] at h
  | httpStatus code body =>
      simp only [requestBody] at h
      split at h <;> [skip; split at h <;> [skip; split at h]] <;>
        (injection h with h1; subst h1; rfl)
  | timeout =>
      simp only [requestBody] at h
      injection h with h1; subst h1; rfl
  | netError m =>
      simp only [requestBody] at h
      injection h with h1; subst h1; rfl

/-- C1, settled against the code: the claim says a network-level failure
(timeout or connection failure) is retried up to 3 attempts with backoff
and surfaced only after exhaustion.  In the code the `except` blocks inside
`_request` convert `httpx.TimeoutException`/`httpx.NetworkError` into
`ValueError` before tenacity's `retry_if_exception_type` can see them, so
no outbound request is ever retried: every call — the timeout input
included — makes exactly one attempt with no backoff sleep, and the
(converted) error surfaces immediately. -/
theorem C1_request_never_retries :
    (∀ outcomes : Nat → AttemptOutcome,
        (_request outcomes).attemptsMade = 1 ∧ (_request outcomes).sleeps = [])
    ∧ _request (fun _ => .timeout)
        = ⟨.error (.valueError "Request timed out. Try \x27fast\x27 mode or simpler query."),
           1, []⟩ := by
  constructor
  · intro outcomes
    cases h : requestBody (outcomes 1) with
    | ok v => simp [_request, tenacityGo, h]
    | error e =>
        have hr := requestBody_not_retryable _ _ h
        simp [_request, tenacityGo, h, hr]
  · rfl

/-- C2 counterexample: with attempt ceiling 2, a remote sequence whose
first ceiling−1 = 1 statuses are `running` (index 0 is the only one below
ceiling−1) does NOT time out — the loop performs `ceiling` polls, consumes
the ceiling-th status (`done`) and returns the done payload.  A timeout
needs `running` repeated `ceiling` times, not `ceiling − 1`. -/
theorem C2_poll_ceiling_minus_one_not_timeout :
    stateOf (c2seq 0) = some "running"
    ∧ poll_until_done c2seq 2000 2 = .done doneDoc
    ∧ (poll_until_done c2seq 2000 2).isTimeout = false :=
  ⟨rfl, rfl, rfl⟩

/-- Polling from index `i` with `fuel` iterations left times out when all
`fuel` statuses it will consume are `running`. -/
theorem pollAux_timeout (f : Nat → StatusDoc) (intervalMs maxAttempts : Nat) :
    ∀ fuel i, (∀ j, j < fuel → stateOf (f (i + j)) = some "running") →
      pollAux f intervalMs maxAttempts i fuel = .timedOut intervalMs maxAttempts := by
  intro fuel
  induction fuel with
  | zero => intro i _; rfl
  | succ n ih =>
      intro i hall
      have h0 : stateOf (f i) = some "running" := by
        have := hall 0 (by omega)
        simpa using this
      obtain ⟨q, hq, hqs⟩ := Option.bind_eq_some.mp h0
      simp only [pollAux, hq, hqs]
      rw [if_neg (by decide), if_neg (by decide)]
      apply ih
      intro j hj
      have := hall (j + 1) (by omega)
      simpa [Nat.add_assoc, Nat.add_comm 1 j] using this

/-- C2 (amended): the poll engine times out iff the remote status stays
`running` for all `ceiling` polls (the claim's `ceiling − 1` is off by
one, see the counterexample); `running` then `done` yields the full done
payload; a `failed` status with a service message surfaces an error
containing that message. -/
theorem C2_poll_engine_spec (f : Nat → StatusDoc) (intervalMs N : Nat) :
    ((∀ i, i < N → stateOf (f i) = some "running") →
        poll_until_done f intervalMs N = .timedOut intervalMs N)
    ∧ (2 ≤ N → stateOf (f 0) = some "running" → stateOf (f 1) = some "done" →
        poll_until_done f intervalMs N = .done (f 1))
    ∧ (∀ q msg, 1 ≤ N → (f 0).queries.getLast? = some q → q.state = some "failed" →
        q.error = some msg →
        ∃ emsg, poll_until_done f intervalMs N = .failed emsg
          ∧ listHasSub msg.data emsg.data = true) := by
  refine ⟨fun h => pollAux_timeout f intervalMs N N 0 (by simpa using h), ?_, ?_⟩
  · intro hN h0 h1
    obtain ⟨k, rfl⟩ : ∃ k, N = k + 2 := ⟨N - 2, by omega⟩
    obtain ⟨q0, hq0, hq0s⟩ := Option.bind_eq_some.mp h0
    obtain ⟨q1, hq1, hq1s⟩ := Option.bind_eq_some.mp h1
    unfold poll_until_done
    simp only [pollAux, hq0, hq0s]
    rw [if_neg (by decide), if_neg (by decide)]
    simp [pollAux, hq1, hq1s]
  · intro q msg hN hq hqs hqe
    obtain ⟨k, rfl⟩ : ∃ k, N = k + 1 := ⟨N - 1, by omega⟩
    refine ⟨"Query failed: " ++ msg, ?_, ?_⟩
    · unfold poll_until_done
      simp only [pollAux, hq, hqs]
      rw [if_neg (by decide)]
      simp [hqe]
    · rw [String.data_append]
      exact listHasSub_append_of _ (by simpa using listHasSub_self_append msg.data [])

/-- Witness for C2: concrete runs exercising all three conjuncts. -/
theorem C2_poll_engine_spec_witness :
    poll_until_done (fun _ => runningDoc) 2000 2 = .timedOut 2000 2
    ∧ poll_until_done c2seq 2000 2 = .done (c2seq 1)
    ∧ ∃ emsg, poll_until_done (fun _ => ⟨[⟨some "failed", some "boom"⟩]⟩) 2000 2
        = .failed emsg ∧ listHasSub "boom".data emsg.data = true :=
  ⟨(C2_poll_engine_spec (fun _ => runningDoc) 2000 2).1 (fun i _ => rfl),
   (C2_poll_engine_spec c2seq 2000 2).2.1 (by omega) rfl rfl,
   (C2_poll_engine_spec (fun _ => ⟨[⟨some "failed", some "boom"⟩]⟩) 2000 2).2.2
     ⟨some "failed", some "boom"⟩ "boom" (by omega) rfl rfl rfl⟩

/-! ## Claim C4: repository-format validation -/
/-- C4: when some repository identifier lacks the `'/'` separator,
`deepwiki_query` returns the format error for the first offender, leaves
the store exactly as it was (the early return happens before the sweep and
before any insertion), and schedules no background execution — hence zero
network calls. -/
theorem C4_invalid_repo_validation (question : String) (repos : List String)
    (mode : String) (now : Int) (tid : String) (st : Store) (r0 : String)
    (hmem : r0 ∈ repos) (hbad : pyInStr '/' r0 = false) :
    ∃ r, pyInStr '/' r = false
      ∧ (deepwiki_query question repos mode now tid st).outcome = .invalidRepo r
      ∧ (deepwiki_query question repos mode now tid st).store = st
      ∧ (deepwiki_query question repos mode now tid st).backgroundScheduled = false := by
  cases hf : repos.find? (fun r => !(pyInStr '/' r)) with
  | none =>
      exfalso
      have := List.find?_eq_none.mp hf r0 hmem
      simp [hbad] at this
  | some r =>
      have hr := List.find?_some hf
      refine ⟨r, by simpa using hr, ?_, ?_, ?_⟩ <;> simp [deepwiki_query, hf]

/-- Witness for C4 at a concrete call. -/
theorem C4_invalid_repo_validation_witness :
    ∃ r, pyInStr '/' r = false
      ∧ (deepwiki_query "how" ["ok/repo", "badrepo"] "fast" 0 "t1" []).outcome
          = .invalidRepo r
      ∧ (deepwiki_query "how" ["ok/repo", "badrepo"] "fast" 0 "t1" []).store = []
      ∧ (deepwiki_query "how" ["ok/repo", "badrepo"] "fast" 0 "t1" []).backgroundScheduled
          = false :=
  C4_invalid_repo_validation "how" ["ok/repo", "badrepo"] "fast" 0 "t1" [] "badrepo"
    (by simp) (by decide)

/-! ## Claim C10: stored questions are truncated to 200 characters -/
/-- C10: the task record created by `deepwiki_query` stores
`question[:200]` — so when the question exceeds 200 characters the stored
text differs from the submitted one — and the running-status reply of
`deepwiki_check_task` echoes exactly that stored (truncated) question. -/
theorem C10_question_truncated :
    (∀ (question mode tid : String) (repos : List String) (now : Int) (st : Store),
        (∀ r ∈ repos, pyInStr '/' r = true) →
        ∃ rec0 : TaskRec,
          (deepwiki_query question repos mode now tid st).store.getLast? = some (tid, rec0)
          ∧ rec0.question = pyTake question 200
          ∧ (200 < question.length → rec0.question ≠ question))
    ∧ (∀ (now : Int) (task_id : String) (st : Store) (task : TaskRec),
        (cleanup_old_tasks now st).lookup task_id = some task →
        task.status = "running" →
        ∃ out, (deepwiki_check_task now task_id st).1 = .ok out
          ∧ listHasSub task.question.data out.data = true) := by
  constructor
  · intro question mode tid repos now st hall
    have hf : repos.find? (fun r => !(pyInStr '/' r)) = none := by
      apply List.find?_eq_none.mpr
      intro r hr
      simp [hall r hr]
    refine ⟨⟨"pending", now, none, none, none, pyTake question 200, repos, mode⟩, ?_, rfl, ?_⟩
    · simp [deepwiki_query, hf, List.getLast?_concat]
    · intro hlen heq
      have hq : question.length = question.data.length := rfl
      have h1 : (pyTake question 200).length = 200 := by
        show (question.data.take 200).length = 200
        rw [List.length_take]
        omega
      have h2 := congrArg String.length heq
      rw [h1] at h2
      omega
  · intro now task_id st task hlk hrun
    refine ⟨runningMsg (now - task.created_at) task, ?_, ?_⟩
    · simp +decide [deepwiki_check_task, hlk, hrun]
    · simp only [runningMsg, String.data_append, List.append_assoc]
      apply listHasSub_append_of
      apply listHasSub_append_of
      apply listHasSub_append_of
      apply listHasSub_append_of
      apply listHasSub_append_of
      apply listHasSub_append_of
      apply listHasSub_append_of
      exact listHasSub_self_append _ _

/-- Witness for C10 at concrete calls (a record created by `deepwiki_query`
and a running task inspected by `deepwiki_check_task`). -/
theorem C10_question_truncated_witness :
    (∃ rec0 : TaskRec,
        (deepwiki_query "how" ["a/b"] "fast" 0 "t1" []).store.getLast? = some ("t1", rec0)
        ∧ rec0.question = pyTake "how" 200
        ∧ (200 < "how".length → rec0.question ≠ "how"))
    ∧ (∃ out,
        (deepwiki_check_task 5 "t1"
            [("t1", ⟨"running", 0, none, none, none, "what", ["a/b"], "fast"⟩)]).1 = .ok out
        ∧ listHasSub "what".data out.data = true) :=
  ⟨C10_question_truncated.1 "how" "fast" "t1" ["a/b"] 0 [] (by decide),
   C10_question_truncated.2 5 "t1"
     [("t1", ⟨"running", 0, none, none, none, "what", ["a/b"], "fast"⟩)]
     ⟨"running", 0, none, none, none, "what", ["a/b"], "fast"⟩ rfl rfl⟩

theorem hasTriple_cons_ne {c : Char} (hc : c ≠ '\n') :
    ∀ l, hasTriple (c :: l) = hasTriple l
  | [] => by simp [hasTriple]
  | [d] => by simp [hasTriple]
  | d :: e :: rest => by simp [hasTriple, hc]

theorem hasTriple_one_nl {c : Char} (hc : c ≠ '\n') (X : List Char) :
    hasTriple ('\n' :: c :: X) = hasTriple (c :: X) := by
  cases X with
  | nil => simp [hasTriple]
  | cons e r => simp [hasTriple, hc]

theorem hasTriple_flush_cons {n : Nat} {c : Char} (hc : c ≠ '\n') (X : List Char) :
    hasTriple (flushRun n ++ c :: X) = hasTriple (c :: X) := by
  unfold flushRun
  split
  · show hasTriple ('\n' :: '\n' :: c :: X) = _
    simp [hasTriple, hc, hasTriple_one_nl hc]
  · rename_i h
    interval_cases n
    · rfl
    · exact hasTriple_one_nl hc X
    · show hasTriple ('\n' :: '\n' :: c :: X) = _
      simp [hasTriple, hc, hasTriple_one_nl hc]

theorem hasTriple_flushRun (n : Nat) : hasTriple (flushRun n) = false := by
  unfold flushRun
  split
  · decide
  · rename_i h
    interval_cases n <;> decide

/-- The collapsing pass never leaves three consecutive newlines. -/
theorem hasTriple_collapseAux (l : List Char) : ∀ n, hasTriple (collapseAux n l) = false := by
  induction l with
  | nil => intro n; simpa [collapseAux] using hasTriple_flushRun n
  | cons c cs ih =>
      intro n
      by_cases hc : c = '\n'
      · subst hc
        simpa [collapseAux] using ih (n + 1)
      · simp only [collapseAux, if_neg hc]
        rw [hasTriple_flush_cons hc, hasTriple_cons_ne hc]
        exact ih 0

/-- C8: on the given chunks the extractor returns exactly
`"Actual answer."`; the newline-collapsing pass never leaves three
consecutive newlines in the retained text, and a concrete run of four
newlines collapses to exactly two. -/
theorem C8_extract_answer :
    extractAnswer c8Input = "Actual answer."
    ∧ (∀ s : String, hasTriple (collapseNewlineRuns s).data = false)
    ∧ collapseNewlineRuns "a\n\n\n\nb" = "a\n\nb" := by
  refine ⟨?_, fun s => hasTriple_collapseAux s.data 0, ?_⟩ <;> rfl

/-- C9: `extract_codemap` is total and yields the no-codemap indicator on
every malformed-input class: missing or empty `queries`; missing or empty
`response` on the last sub-query; chunk string data on which `json.loads`
raises; decoded dict data lacking a truthy `traces` key; and data with
truthy `traces` that fails `Codemap(**data)` validation.  Exceptions are
modelled by the `Except` body, whose every error the enclosing
`try/except` converts to `None` — nothing propagates to the caller. -/
theorem C9_extract_codemap_total (loads : String → Except PyExc PyValue) :
    (extract_codemap loads (.pdict []) = none
      ∧ ∀ v : PyValue, v.truthy = false →
          extract_codemap loads (.pdict [("queries", v)]) = none)
    ∧ (extract_codemap loads (.pdict [("queries", .plist [.pdict []])]) = none
      ∧ ∀ v : PyValue, v.truthy = false →
          extract_codemap loads
            (.pdict [("queries", .plist [.pdict [("response", v)]])]) = none)
    ∧ (∀ (s : String) (exc : PyExc), loads s = .error exc →
        extract_codemap loads
          (mkChunkResp (.pdict [("type", .pstr "chunk"), ("data", .pstr s)])) = none)
    ∧ (∀ es : List (String × PyValue), (fieldOf es "traces").truthy = false →
        extract_codemap loads
          (mkChunkResp (.pdict [("type", .pstr "chunk"), ("data", .pdict es)])) = none)
    ∧ (∀ (es : List (String × PyValue)) (exc : PyExc),
        (fieldOf es "traces").truthy = true →
        codemapOfPy (.pdict es) = .error exc →
        extract_codemap loads
          (mkChunkResp (.pdict [("type", .pstr "chunk"), ("data", .pdict es)])) = none) := by
  refine ⟨⟨?_, ?_⟩, ⟨?_, ?_⟩, ?_, ?_, ?_⟩
  · rfl
  · intro v hv
    simp [extract_codemap, extractCodemapBody, pyGet, List.lookup, hv, Bind.bind,
      Except.bind, Pure.pure, Except.pure]
  · rfl
  · intro v hv
    simp [extract_codemap, extractCodemapBody, pyGet, pyLastItem, pyIter,
      List.lookup, hv, Bind.bind, Except.bind, Pure.pure, Except.pure]
  · intro s exc hexc
    by_cases hs : s = ""
    · subst hs; rfl
    · simp [extract_codemap, extractCodemapBody, mkChunkResp, pyGet, pyLastItem,
        pyIter, extractLoop, pyEqStrChunk, PyValue.truthy, List.lookup, hs, hexc,
        Bind.bind, Except.bind, Pure.pure, Except.pure]
  · intro es hes
    cases es with
    | nil => rfl
    | cons e es' =>
        simp [fieldOf, List.lookup] at hes
        simp [extract_codemap, extractCodemapBody, mkChunkResp, pyGet, pyLastItem,
          pyIter, extractLoop, pyEqStrChunk, PyValue.truthy, List.lookup, fieldOf,
          Bind.bind, Except.bind, Pure.pure, Except.pure] at hes ⊢
        simp [hes]
  · intro es exc htr hcm
    cases es with
    | nil => simp [fieldOf, List.lookup, PyValue.truthy] at htr
    | cons e es' =>
        simp [fieldOf, List.lookup] at htr
        simp [extract_codemap, extractCodemapBody, mkChunkResp, pyGet, pyLastItem,
          pyIter, extractLoop, pyEqStrChunk, PyValue.truthy, List.lookup, fieldOf,
          Bind.bind, Except.bind, Pure.pure, Except.pure] at htr ⊢
        simp [htr, hcm, Bind.bind, Except.bind]

/-- Witness for C9 at concrete malformed inputs (with a `loads` that always
raises). -/
theorem C9_extract_codemap_total_witness :
    extract_codemap (fun _ => .error .jsonDecodeError) (.pdict []) = none
    ∧ extract_codemap (fun _ => .error .jsonDecodeError)
        (mkChunkResp (.pdict [("type", .pstr "chunk"), ("data", .pstr "not json")])) = none
    ∧ extract_codemap (fun _ => .error .jsonDecodeError)
        (mkChunkResp (.pdict [("type", .pstr "chunk"),
          ("data", .pdict [("traces", .plist [.pstr "x"])])])) = none :=
  ⟨(C9_extract_codemap_total (fun _ => .error .jsonDecodeError)).1.1,
   (C9_extract_codemap_total (fun _ => .error .jsonDecodeError)).2.2.1
     "not json" .jsonDecodeError rfl,
   (C9_extract_codemap_total (fun _ => .error .jsonDecodeError)).2.2.2.2
     [("traces", .plist [.pstr "x"])] .validationError rfl rfl⟩

/-! ## Claim C3: the eviction sweep -/
theorem taskLe_trans : ∀ a b c, taskLe a b = true → taskLe b c = true → taskLe a c = true := by
  intro a b c
  simp only [taskLe, decide_eq_true_eq]
  omega

theorem taskLe_total : ∀ a b, (taskLe a b || taskLe b a) = true := by
  intro a b
  simp only [taskLe, Bool.or_eq_true, decide_eq_true_eq]
  omega

/-- Deleting (by key) the first `k` entries of the stable sort from a
key-nodup store is, up to permutation, keeping the sort's remaining
entries. -/
theorem survivors_perm (kept : Store) (k : Nat)
    (hnd : (kept.map Prod.fst).Nodup) :
    List.Perm
      (kept.filter (fun p => !(((kept.mergeSort taskLe).take k).map Prod.fst).contains p.1))
      ((kept.mergeSort taskLe).drop k) := by
  set f : String × TaskRec → Bool :=
    fun p => !(((kept.mergeSort taskLe).take k).map Prod.fst).contains p.1 with hf
  set sorted := kept.mergeSort taskLe with hsorted
  have hperm : List.Perm sorted kept := List.mergeSort_perm kept taskLe
  have hndS : (sorted.map Prod.fst).Nodup := ((hperm.map Prod.fst).nodup_iff).mpr hnd
  have hsplit : sorted.take k ++ sorted.drop k = sorted := List.take_append_drop k sorted
  have hndTD : ((sorted.take k).map Prod.fst ++ (sorted.drop k).map Prod.fst).Nodup := by
    rw [← List.map_append, hsplit]
    exact hndS
  have hdisj := (List.nodup_append.mp hndTD).2.2
  have hfilter_take : (sorted.take k).filter f = [] := by
    apply List.filter_eq_nil_iff.mpr
    intro p hp
    have hmem : p.1 ∈ (sorted.take k).map Prod.fst := List.mem_map_of_mem Prod.fst hp
    have hel : ((sorted.take k).map Prod.fst).contains p.1 = true := List.elem_iff.mpr hmem
    simp only [hf]
    rw [hel]
    decide
  have hfilter_drop : (sorted.drop k).filter f = sorted.drop k := by
    apply List.filter_eq_self.mpr
    intro p hp
    have hmem : p.1 ∈ (sorted.drop k).map Prod.fst := List.mem_map_of_mem Prod.fst hp
    have hni : p.1 ∉ (sorted.take k).map Prod.fst := fun hin => hdisj hin hmem
    have hel : ((sorted.take k).map Prod.fst).contains p.1 = false := by
      cases hbe : ((sorted.take k).map Prod.fst).contains p.1 with
      | false => rfl
      | true => exact absurd (List.elem_iff.mp hbe) hni
    simp only [hf]
    rw [hel]
    decide
  have h1 : List.Perm (kept.filter f) (sorted.filter f) := (hperm.filter f).symm
  have h2 : sorted.filter f = sorted.drop k := by
    conv_lhs => rw [← hsplit]
    rw [List.filter_append, hfilter_take, hfilter_drop, List.nil_append]
  rw [← h2]
  exact h1

/-- C3: after `cleanup_old_tasks` no task strictly older than the 24-hour
retention window remains and at most `MAX_TASKS` records survive; when the
capacity branch had to evict (more than `MAX_TASKS` unexpired tasks),
exactly `MAX_TASKS` survive and every unexpired task that was evicted is
no younger than every survivor — the survivors are the most recently
created records (ties broken by the stable sort). -/
theorem C3_cleanup_invariants (now : Int) (ts : Store)
    (hnd : (ts.map Prod.fst).Nodup) :
    (∀ p ∈ cleanup_old_tasks now ts,
        ¬ (p.2.created_at < now - TASK_EXPIRY_HOURS * 3600))
    ∧ (cleanup_old_tasks now ts).length ≤ MAX_TASKS
    ∧ (MAX_TASKS < (ts.filter (fun p =>
          !decide (p.2.created_at < now - TASK_EXPIRY_HOURS * 3600))).length →
        (cleanup_old_tasks now ts).length = MAX_TASKS
        ∧ ∀ p ∈ cleanup_old_tasks now ts, ∀ q ∈ ts,
            ¬ (q.2.created_at < now - TASK_EXPIRY_HOURS * 3600) →
            q.1 ∉ (cleanup_old_tasks now ts).map Prod.fst →
            q.2.created_at ≤ p.2.created_at) := by
  set thr := now - TASK_EXPIRY_HOURS * 3600 with hthr
  set kept := ts.filter (fun p => !decide (p.2.created_at < thr)) with hkept
  have hcl : cleanup_old_tasks now ts =
      if MAX_TASKS < kept.length then
        kept.filter (fun p =>
          !(((kept.mergeSort taskLe).take (kept.length - MAX_TASKS)).map Prod.fst).contains p.1)
      else kept := rfl
  by_cases hbig : MAX_TASKS < kept.length
  · rw [hcl, if_pos hbig]
    set k := kept.length - MAX_TASKS with hk
    have hndk : (kept.map Prod.fst).Nodup :=
      List.Nodup.sublist ((List.filter_sublist ts).map Prod.fst) hnd
    have hps := survivors_perm kept k hndk
    have hlenS : (kept.mergeSort taskLe).length = kept.length :=
      (List.mergeSort_perm kept taskLe).length_eq
    have hlen :
        (kept.filter (fun p =>
          !(((kept.mergeSort taskLe).take k).map Prod.fst).contains p.1)).length
          = MAX_TASKS := by
      have h1 := hps.length_eq
      rw [List.length_drop] at h1
      omega
    refine ⟨?_, by omega, fun _ => ⟨hlen, ?_⟩⟩
    · intro p hp
      have hpk : p ∈ kept := (List.mem_filter.mp hp).1
      have := (List.mem_filter.mp hpk).2
      simpa using this
    · intro p hp q hq hqexp hqni
      have hqk : q ∈ kept := List.mem_filter.mpr ⟨hq, by simp [hqexp]⟩
      have hqsorted : q ∈ kept.mergeSort taskLe :=
        ((List.mergeSort_perm kept taskLe).mem_iff).mpr hqk
      have hsplit := List.take_append_drop k (kept.mergeSort taskLe)
      have hqtd : q ∈ (kept.mergeSort taskLe).take k
          ∨ q ∈ (kept.mergeSort taskLe).drop k := by
        rw [← hsplit] at hqsorted
        exact List.mem_append.mp hqsorted
      have hpd : p ∈ (kept.mergeSort taskLe).drop k := hps.mem_iff.mp hp
      cases hqtd with
      | inr hqd =>
          exact absurd (List.mem_map_of_mem Prod.fst (hps.mem_iff.mpr hqd)) hqni
      | inl hqt =>
          have hpw := List.sorted_mergeSort taskLe_trans taskLe_total kept
          rw [← hsplit] at hpw
          have := (List.pairwise_append.mp hpw).2.2 q hqt p hpd
          simpa [taskLe, decide_eq_true_eq] using this
  · rw [hcl, if_neg hbig]
    refine ⟨?_, by omega, fun h => absurd h hbig⟩
    intro p hp
    have := (List.mem_filter.mp hp).2
    simpa using this

/-- Witness for C3 at a concrete store with distinct keys. -/
theorem C3_cleanup_invariants_witness :
    (∀ p ∈ cleanup_old_tasks 200000 c3Store,
        ¬ (p.2.created_at < 200000 - TASK_EXPIRY_HOURS * 3600))
    ∧ (cleanup_old_tasks 200000 c3Store).length ≤ MAX_TASKS
    ∧ (MAX_TASKS < (c3Store.filter (fun p =>
          !decide (p.2.created_at < 200000 - TASK_EXPIRY_HOURS * 3600))).length →
        (cleanup_old_tasks 200000 c3Store).length = MAX_TASKS
        ∧ ∀ p ∈ cleanup_old_tasks 200000 c3Store, ∀ q ∈ c3Store,
            ¬ (q.2.created_at < 200000 - TASK_EXPIRY_HOURS * 3600) →
            q.1 ∉ (cleanup_old_tasks 200000 c3Store).map Prod.fst →
            q.2.created_at ≤ p.2.created_at) :=
  C3_cleanup_invariants 200000 c3Store (by simp [c3Store])

namespace MermaidGenerator

theorem sanitize_chars (s : String) :
    ∀ c ∈ (sanitize_id s).data, c.isAlphanum = true ∨ c = '_' := by
  intro c hc
  simp [sanitize_id] at hc
  obtain ⟨a, ha, hac⟩ := hc
  by_cases h : a.isAlphanum
  · left; rw [← hac]; simp [h]
  · right; rw [← hac]; simp [h]

theorem sanitize_ne (s : String) {x : Char} (h1 : x.isAlphanum = false) (h2 : x ≠ '_') :
    ∀ c ∈ (sanitize_id s).data, c ≠ x := by
  intro c hc
  rcases sanitize_chars s c hc with h | h
  · intro he
    subst he
    simp [h1] at h
  · intro he
    subst he
    exact h2 h

theorem sanitize_sanChar (s : String) : ∀ c ∈ (sanitize_id s).data, sanChar c = true := by
  intro c hc
  rcases sanitize_chars s c hc with h | h <;> simp [sanChar, h]

theorem sanitize_data_append (a b : String) :
    (sanitize_id (a ++ b)).data = (sanitize_id a).data ++ (sanitize_id b).data := by
  simp [sanitize_id, String.data_append]

theorem sanitize_loc (x : String) :
    (sanitize_id ("loc_" ++ x)).data = 'l' :: 'o' :: 'c' :: '_' :: (sanitize_id x).data := by
  rw [sanitize_data_append]; rfl

theorem sanitize_trace (x : String) :
    (sanitize_id ("trace_" ++ x)).data
      = 't' :: 'r' :: 'a' :: 'c' :: 'e' :: '_' :: (sanitize_id x).data := by
  rw [sanitize_data_append]; rfl

theorem dropWhile_append_of_all {p : Char → Bool} {A : List Char} (r : List Char)
    (h : ∀ a ∈ A, p a = true) : (A ++ r).dropWhile p = r.dropWhile p := by
  induction A with
  | nil => rfl
  | cons a as ih =>
      rw [List.cons_append, List.dropWhile_cons, if_pos (h a (by simp))]
      exact ih (fun x hx => h x (by simp [hx]))

/-! Classification of each emitted line form under each classifier. -/
theorem isSubgraphL_subgraph (t : CodemapTrace) : isSubgraphL (subgraphLine t) = true := by
  simp only [isSubgraphL, subgraphLine, String.data_append, List.append_assoc]
  exact listIsPre_self_append _ _

theorem isSubgraphL_node (loc : CodemapLocation) : isSubgraphL (nodeLine loc) = false := by
  simp only [isSubgraphL, nodeLine, String.data_append, List.append_assoc]
  simp +decide [listIsPre]

theorem isSubgraphL_solid (a b : CodemapLocation) : isSubgraphL (solidEdgeLine a b) = false := by
  simp only [isSubgraphL, solidEdgeLine, String.data_append, List.append_assoc, sanitize_loc]
  simp +decide [listIsPre]

theorem isSubgraphL_dashed (a b : CodemapLocation) : isSubgraphL (dashedEdgeLine a b) = false := by
  simp only [isSubgraphL, dashedEdgeLine, String.data_append, List.append_assoc, sanitize_loc]
  simp +decide [listIsPre]

theorem isSubgraphL_style (i : Nat) (t : CodemapTrace) : isSubgraphL (styleLine i t) = false := by
  simp only [isSubgraphL, styleLine, String.data_append, List.append_assoc]
  simp +decide [listIsPre]

theorem isNodeL_node (loc : CodemapLocation) : isNodeL (nodeLine loc) = true := by
  simp only [isNodeL, nodeLine, String.data_append, List.append_assoc]
  simp +decide [listIsPre]

theorem isNodeL_subgraph (t : CodemapTrace) : isNodeL (subgraphLine t) = false := by
  simp only [isNodeL, subgraphLine, String.data_append, List.append_assoc]
  simp +decide [listIsPre]

theorem isNodeL_solid (a b : CodemapLocation) : isNodeL (solidEdgeLine a b) = false := by
  simp only [isNodeL, solidEdgeLine, String.data_append, List.append_assoc, sanitize_loc]
  simp +decide [listIsPre]

theorem isNodeL_dashed (a b : CodemapLocation) : isNodeL (dashedEdgeLine a b) = false := by
  simp only [isNodeL, dashedEdgeLine, String.data_append, List.append_assoc, sanitize_loc]
  simp +decide [listIsPre]

theorem isNodeL_style (i : Nat) (t : CodemapTrace) : isNodeL (styleLine i t) = false := by
  simp only [isNodeL, styleLine, String.data_append, List.append_assoc]
  simp +decide [listIsPre]

theorem edgeKind_solid (a b : CodemapLocation) : edgeKind (solidEdgeLine a b) = some true := by
  have hpre : listIsPre "    loc_".data (solidEdgeLine a b).data = true := by
    simp only [solidEdgeLine, String.data_append, List.append_assoc, sanitize_loc]
    simp +decide [listIsPre]
  have hdata : (solidEdgeLine a b).data.drop 4
      = (sanitize_id ("loc_" ++ a.id)).data
        ++ (" --> ".data ++ (sanitize_id ("loc_" ++ b.id)).data) := by
    simp only [solidEdgeLine, String.data_append, List.append_assoc]
    rfl
  simp only [edgeKind, hpre, if_true, hdata]
  rw [dropWhile_append_of_all _ (sanitize_sanChar _)]
  simp +decide [List.dropWhile_cons, listIsPre]

theorem edgeKind_dashed (a b : CodemapLocation) : edgeKind (dashedEdgeLine a b) = some false := by
  have hpre : listIsPre "    loc_".data (dashedEdgeLine a b).data = true := by
    simp only [dashedEdgeLine, String.data_append, List.append_assoc, sanitize_loc]
    simp +decide [listIsPre]
  have hdata : (dashedEdgeLine a b).data.drop 4
      = (sanitize_id ("loc_" ++ a.id)).data
        ++ (" -.-> ".data ++ (sanitize_id ("loc_" ++ b.id)).data) := by
    simp only [dashedEdgeLine, String.data_append, List.append_assoc]
    rfl
  simp only [edgeKind, hpre, if_true, hdata]
  rw [dropWhile_append_of_all _ (sanitize_sanChar _)]
  simp +decide [List.dropWhile_cons, listIsPre]

theorem edgeKind_subgraph (t : CodemapTrace) : edgeKind (subgraphLine t) = none := by
  have hpre : listIsPre "    loc_".data (subgraphLine t).data = false := by
    simp only [subgraphLine, String.data_append, List.append_assoc]
    simp +decide [listIsPre]
  simp [edgeKind, hpre]

theorem edgeKind_node (loc : CodemapLocation) : edgeKind (nodeLine loc) = none := by
  have hpre : listIsPre "    loc_".data (nodeLine loc).data = false := by
    simp only [nodeLine, String.data_append, List.append_assoc]
    simp +decide [listIsPre]
  simp [edgeKind, hpre]

theorem edgeKind_style (i : Nat) (t : CodemapTrace) : edgeKind (styleLine i t) = none := by
  have hpre : listIsPre "    loc_".data (styleLine i t).data = false := by
    simp only [styleLine, String.data_append, List.append_assoc]
    simp +decide [listIsPre]
  simp [edgeKind, hpre]

/-! Per-block line counts. -/
theorem countP_map_false {α : Type} (f : α → String) (ψ : String → Bool) (l : List α)
    (h : ∀ x, ψ (f x) = false) : (l.map f).countP ψ = 0 := by
  rw [List.countP_map]
  exact List.countP_eq_zero.mpr (fun a _ => by simp [Function.comp, h a])

theorem countP_map_true {α : Type} (f : α → String) (ψ : String → Bool) (l : List α)
    (h : ∀ x, ψ (f x) = true) : (l.map f).countP ψ = l.length := by
  rw [List.countP_map]
  exact List.countP_eq_length.mpr (fun a _ => by simp [Function.comp, h a])

/-! Closed-line classifier values. -/
theorem isSubgraphL_blank : isSubgraphL "" = false := by decide

theorem isSubgraphL_end : isSubgraphL "    end" = false := by decide

theorem isSubgraphL_flow : isSubgraphL "flowchart TB" = false := by decide

theorem isNodeL_blank : isNodeL "" = false := by decide

theorem isNodeL_end : isNodeL "    end" = false := by decide

theorem isNodeL_flow : isNodeL "flowchart TB" = false := by decide

theorem edgeKind_blank : edgeKind "" = none := by decide

theorem edgeKind_end : edgeKind "    end" = none := by decide

theorem edgeKind_flow : edgeKind "flowchart TB" = none := by decide

theorem isSolidL_subgraph (t : CodemapTrace) : isSolidL (subgraphLine t) = false := by
  simp [isSolidL, edgeKind_subgraph]

theorem isSolidL_node (loc : CodemapLocation) : isSolidL (nodeLine loc) = false := by
  simp [isSolidL, edgeKind_node]

theorem isSolidL_solid (a b : CodemapLocation) : isSolidL (solidEdgeLine a b) = true := by
  simp [isSolidL, edgeKind_solid]

theorem isSolidL_dashed (a b : CodemapLocation) : isSolidL (dashedEdgeLine a b) = false := by
  simp +decide [isSolidL, edgeKind_dashed]

theorem isSolidL_style (i : Nat) (t : CodemapTrace) : isSolidL (styleLine i t) = false := by
  simp [isSolidL, edgeKind_style]

theorem isDashedL_subgraph (t : CodemapTrace) : isDashedL (subgraphLine t) = false := by
  simp [isDashedL, edgeKind_subgraph]

theorem isDashedL_node (loc : CodemapLocation) : isDashedL (nodeLine loc) = false := by
  simp [isDashedL, edgeKind_node]

theorem isDashedL_solid (a b : CodemapLocation) : isDashedL (solidEdgeLine a b) = false := by
  simp +decide [isDashedL, edgeKind_solid]

theorem isDashedL_dashed (a b : CodemapLocation) : isDashedL (dashedEdgeLine a b) = true := by
  simp [isDashedL, edgeKind_dashed]

theorem isDashedL_style (i : Nat) (t : CodemapTrace) : isDashedL (styleLine i t) = false := by
  simp [isDashedL, edgeKind_style]

theorem traceBlock_countP_sub (t : CodemapTrace) : (traceBlock t).countP isSubgraphL = 1 := by
  have hA : (["", subgraphLine t] : List String).countP isSubgraphL = 1 := by
    rw [List.countP_cons, List.countP_cons, List.countP_nil, isSubgraphL_subgraph,
      isSubgraphL_blank]
    decide
  have hB := countP_map_false nodeLine isSubgraphL t.locations isSubgraphL_node
  have hC : (["    end"] : List String).countP isSubgraphL = 0 := by decide
  have hD := countP_map_false
    (fun ab : CodemapLocation × CodemapLocation => solidEdgeLine ab.1 ab.2) isSubgraphL
    (t.locations.zip t.locations.tail) (fun ab => isSubgraphL_solid ab.1 ab.2)
  unfold traceBlock
  rw [List.countP_append, List.countP_append, List.countP_append, hA, hB, hC, hD]

theorem traceBlock_countP_node (t : CodemapTrace) :
    (traceBlock t).countP isNodeL = t.locations.length := by
  have hA : (["", subgraphLine t] : List String).countP isNodeL = 0 := by
    rw [List.countP_cons, List.countP_cons, List.countP_nil, isNodeL_subgraph, isNodeL_blank]
    decide
  have hB := countP_map_true nodeLine isNodeL t.locations isNodeL_node
  have hC : (["    end"] : List String).countP isNodeL = 0 := by decide
  have hD := countP_map_false
    (fun ab : CodemapLocation × CodemapLocation => solidEdgeLine ab.1 ab.2) isNodeL
    (t.locations.zip t.locations.tail) (fun ab => isNodeL_solid ab.1 ab.2)
  unfold traceBlock
  rw [List.countP_append, List.countP_append, List.countP_append, hA, hB, hC, hD]
  omega

theorem traceBlock_countP_solid (t : CodemapTrace) :
    (traceBlock t).countP isSolidL = t.locations.length - 1 := by
  have hA : (["", subgraphLine t] : List String).countP isSolidL = 0 := by
    rw [List.countP_cons, List.countP_cons, List.countP_nil, isSolidL_subgraph]
    decide
  have hB := countP_map_false nodeLine isSolidL t.locations isSolidL_node
  have hC : (["    end"] : List String).countP isSolidL = 0 := by decide
  have hD := countP_map_true
    (fun ab : CodemapLocation × CodemapLocation => solidEdgeLine ab.1 ab.2) isSolidL
    (t.locations.zip t.locations.tail) (fun ab => isSolidL_solid ab.1 ab.2)
  unfold traceBlock
  rw [List.countP_append, List.countP_append, List.countP_append, hA, hB, hC, hD,
    List.length_zip, List.length_tail]
  omega

theorem traceBlock_countP_dashed (t : CodemapTrace) : (traceBlock t).countP isDashedL = 0 := by
  have hA : (["", subgraphLine t] : List String).countP isDashedL = 0 := by
    rw [List.countP_cons, List.countP_cons, List.countP_nil, isDashedL_subgraph]
    decide
  have hB := countP_map_false nodeLine isDashedL t.locations isDashedL_node
  have hC : (["    end"] : List String).countP isDashedL = 0 := by decide
  have hD := countP_map_false
    (fun ab : CodemapLocation × CodemapLocation => solidEdgeLine ab.1 ab.2) isDashedL
    (t.locations.zip t.locations.tail) (fun ab => isDashedL_solid ab.1 ab.2)
  unfold traceBlock
  rw [List.countP_append, List.countP_append, List.countP_append, hA, hB, hC, hD]

theorem interTraceEdges_all_dashed (cm : Codemap) :
    ∀ x ∈ interTraceEdges cm, ∃ a b, x = dashedEdgeLine a b := by
  intro x hx
  obtain ⟨tt, _, htt⟩ := List.mem_filterMap.mp hx
  unfold interPair at htt
  cases h1 : tt.1.locations.getLast? with
  | none => rw [h1] at htt; simp at htt
  | some a =>
      cases h2 : tt.2.locations.head? with
      | none => rw [h1, h2] at htt; simp at htt
      | some b =>
          rw [h1, h2] at htt
          simp at htt
          exact ⟨a, b, htt.symm⟩

theorem inter_countP_zero (cm : Codemap) (ψ : String → Bool)
    (h : ∀ a b, ψ (dashedEdgeLine a b) = false) : (interTraceEdges cm).countP ψ = 0 := by
  apply List.countP_eq_zero.mpr
  intro x hx
  obtain ⟨a, b, rfl⟩ := interTraceEdges_all_dashed cm x hx
  simp [h]

theorem inter_pairs_countP_dashed (l : List (CodemapTrace × CodemapTrace))
    (h : ∀ x ∈ l, x.1.locations ≠ [] ∧ x.2.locations ≠ []) :
    (l.filterMap interPair).countP isDashedL = l.length := by
  induction l with
  | nil => rfl
  | cons x l' ih =>
      obtain ⟨h1, h2⟩ := h x (by simp)
      obtain ⟨a, ha⟩ : ∃ a, x.1.locations.getLast? = some a := by
        cases hg : x.1.locations.getLast? with
        | none => exact absurd (List.getLast?_eq_none_iff.mp hg) h1
        | some a => exact ⟨a, rfl⟩
      obtain ⟨b, hb⟩ : ∃ b, x.2.locations.head? = some b := by
        cases hg : x.2.locations.head? with
        | none => exact absurd (List.head?_eq_none_iff.mp hg) h2
        | some b => exact ⟨b, rfl⟩
      rw [List.filterMap_cons]
      have hip : interPair x = some (dashedEdgeLine a b) := by
        unfold interPair
        rw [ha, hb]
      rw [hip]
      rw [List.countP_cons]
      have hd : isDashedL (dashedEdgeLine a b) = true := by
        simp [isDashedL, edgeKind_dashed]
      rw [ih (fun y hy => h y (by simp [hy])), hd]
      simp

theorem inter_countP_dashed (cm : Codemap) (h2 : ∀ t ∈ cm.traces, t.locations ≠ []) :
    (interTraceEdges cm).countP isDashedL = cm.traces.length - 1 := by
  unfold interTraceEdges
  rw [inter_pairs_countP_dashed]
  · rw [List.length_zip, List.length_tail]
    omega
  · intro x hx
    have := List.of_mem_zip (a := x.1) (b := x.2) (by simpa using hx)
    exact ⟨h2 x.1 this.1, h2 x.2 (List.mem_of_mem_tail this.2)⟩

theorem style_countP_zero (cm : Codemap) (ψ : String → Bool)
    (h : ∀ i t, ψ (styleLine i t) = false) :
    (cm.traces.enum.map (fun it => styleLine it.1 it.2)).countP ψ = 0 := by
  apply List.countP_eq_zero.mpr
  intro x hx
  obtain ⟨it, _, rfl⟩ := List.mem_map.mp hx
  simp [h]

/-- The master decomposition of line counts over the generated output. -/
theorem countP_generateLines (ψ : String → Bool) (cm : Codemap) :
    (generateLines cm).countP ψ
      = (["flowchart TB"] : List String).countP ψ
        + (cm.traces.map (fun t => (traceBlock t).countP ψ)).sum
        + (interTraceEdges cm).countP ψ
        + ([""] : List String).countP ψ
        + (cm.traces.enum.map (fun it => styleLine it.1 it.2)).countP ψ := by
  simp only [generateLines, List.countP_append, List.countP_flatten, List.map_map]
  rfl

end MermaidGenerator

/-! ## Claim C5: shape counts of the generated diagram -/
/-- C5: for a codemap with at least one trace and at least one location per
trace, the generated lines contain exactly one subgraph block per trace,
one node line per location, (locations − 1) solid edge statements per
trace, and (traces − 1) dashed inter-trace edge statements. -/
theorem C5_generate_counts (cm : Codemap)
    (h1 : cm.traces ≠ [])
    (h2 : ∀ t ∈ cm.traces, t.locations ≠ []) :
    (MermaidGenerator.generateLines cm).countP MermaidGenerator.isSubgraphL
        = cm.traces.length
    ∧ (MermaidGenerator.generateLines cm).countP MermaidGenerator.isNodeL
        = (cm.traces.map (fun t => t.locations.length)).sum
    ∧ (MermaidGenerator.generateLines cm).countP MermaidGenerator.isSolidL
        = (cm.traces.map (fun t => t.locations.length - 1)).sum
    ∧ (MermaidGenerator.generateLines cm).countP MermaidGenerator.isDashedL
        = cm.traces.length - 1 := by
  refine ⟨?_, ?_, ?_, ?_⟩
  · rw [MermaidGenerator.countP_generateLines,
      MermaidGenerator.inter_countP_zero _ _ MermaidGenerator.isSubgraphL_dashed,
      MermaidGenerator.style_countP_zero _ _ MermaidGenerator.isSubgraphL_style]
    simp only [MermaidGenerator.traceBlock_countP_sub]
    rw [(by decide : List.countP MermaidGenerator.isSubgraphL ["flowchart TB"] = 0),
      (by decide : List.countP MermaidGenerator.isSubgraphL [""] = 0)]
    simp [List.map_const']
  · rw [MermaidGenerator.countP_generateLines,
      MermaidGenerator.inter_countP_zero _ _ MermaidGenerator.isNodeL_dashed,
      MermaidGenerator.style_countP_zero _ _ MermaidGenerator.isNodeL_style]
    simp only [MermaidGenerator.traceBlock_countP_node]
    rw [(by decide : List.countP MermaidGenerator.isNodeL ["flowchart TB"] = 0),
      (by decide : List.countP MermaidGenerator.isNodeL [""] = 0)]
    omega
  · rw [MermaidGenerator.countP_generateLines,
      MermaidGenerator.inter_countP_zero _ _ MermaidGenerator.isSolidL_dashed,
      MermaidGenerator.style_countP_zero _ _ MermaidGenerator.isSolidL_style]
    simp only [MermaidGenerator.traceBlock_countP_solid]
    rw [(by decide : List.countP MermaidGenerator.isSolidL ["flowchart TB"] = 0),
      (by decide : List.countP MermaidGenerator.isSolidL [""] = 0)]
    omega
  · rw [MermaidGenerator.countP_generateLines,
      MermaidGenerator.inter_countP_dashed cm h2,
      MermaidGenerator.style_countP_zero _ _ MermaidGenerator.isDashedL_style]
    simp only [MermaidGenerator.traceBlock_countP_dashed]
    rw [(by decide : List.countP MermaidGenerator.isDashedL ["flowchart TB"] = 0),
      (by decide : List.countP MermaidGenerator.isDashedL [""] = 0)]
    simp [List.map_const']

/-- Witness for C5 at the concrete codemap. -/
theorem C5_generate_counts_witness :
    (MermaidGenerator.generateLines c5cm).countP MermaidGenerator.isSubgraphL
        = c5cm.traces.length
    ∧ (MermaidGenerator.generateLines c5cm).countP MermaidGenerator.isNodeL
        = (c5cm.traces.map (fun t => t.locations.length)).sum
    ∧ (MermaidGenerator.generateLines c5cm).countP MermaidGenerator.isSolidL
        = (c5cm.traces.map (fun t => t.locations.length - 1)).sum
    ∧ (MermaidGenerator.generateLines c5cm).countP MermaidGenerator.isDashedL
        = c5cm.traces.length - 1 :=
  C5_generate_counts c5cm (by simp [c5cm])
    (by
      intro t ht
      simp [c5cm] at ht
      rcases ht with rfl | rfl <;> simp)

namespace MermaidGenerator

/-! ## Claim C6: sanitization and label escaping -/
/-- Counting occurrences of one character. -/
theorem countP_char_zero {x : Char} {l : List Char} (h : ∀ c ∈ l, c ≠ x) :
    l.countP (fun c => c == x) = 0 :=
  List.countP_eq_zero.mpr (fun a ha => by simp [h a ha])

theorem escape_label_chars (s : String) :
    ∀ c ∈ (escape_label s).data, c ≠ '"' ∧ c ≠ '\n' := by
  intro c hc
  simp only [escape_label] at hc
  obtain ⟨a, _, hca⟩ := List.mem_flatMap.mp hc
  by_cases h1 : a = '"'
  · rw [if_pos h1] at hca
    fin_cases hca <;> exact ⟨by decide, by decide⟩
  · rw [if_neg h1] at hca
    by_cases h2 : a = '\n'
    · rw [if_pos h2] at hca
      fin_cases hca <;> exact ⟨by decide, by decide⟩
    · rw [if_neg h2] at hca
      have : c = a := by simpa using hca
      subst this
      exact ⟨h1, h2⟩

theorem natDigitsAux_chars (fuel : Nat) :
    ∀ n, ∀ c ∈ natDigitsAux fuel n, c ≠ '"' ∧ c ≠ '\n' := by
  induction fuel with
  | zero => intro n c hc; simp [natDigitsAux] at hc
  | succ f ih =>
      intro n c hc
      simp only [natDigitsAux] at hc
      by_cases hn : n = 0
      · rw [if_pos hn] at hc
        simp at hc
      · rw [if_neg hn] at hc
        rcases List.mem_append.mp hc with h | h
        · exact ih (n / 10) c h
        · have hc' : c = Nat.digitChar (n % 10) := by simpa using h
          subst hc'
          have hm : n % 10 < 10 := Nat.mod_lt _ (by omega)
          set m := n % 10 with hmdef
          interval_cases m <;> exact ⟨by decide, by decide⟩

theorem natRepr_chars (n : Nat) : ∀ c ∈ (natRepr n).data, c ≠ '"' ∧ c ≠ '\n' := by
  unfold natRepr
  by_cases hn : n = 0
  · rw [if_pos hn]
    intro c hc
    fin_cases hc <;> exact ⟨by decide, by decide⟩
  · rw [if_neg hn]
    exact natDigitsAux_chars (n + 1) n

theorem intRepr_chars (n : Int) : ∀ c ∈ (intRepr n).data, c ≠ '"' ∧ c ≠ '\n' := by
  unfold intRepr
  by_cases hn : n < 0
  · rw [if_pos hn]
    intro c hc
    rw [String.data_append] at hc
    rcases List.mem_append.mp hc with h | h
    · fin_cases h <;> exact ⟨by decide, by decide⟩
    · exact natRepr_chars _ c h
  · rw [if_neg hn]
    exact natRepr_chars _

theorem short_path_chars (p : String) : ∀ c ∈ (short_path p).data, c ∈ p.data := by
  unfold short_path
  by_cases h : pyInStr '/' p
  · rw [if_pos h]
    intro c hc
    have : c ∈ p.data.reverse.takeWhile (fun c => c != '/') := by
      simpa using (List.mem_reverse.mp (by simpa using hc))
    have := (List.takeWhile_sublist _).subset this
    exact List.mem_reverse.mp this
  · rw [if_neg h]
    intro c hc
    exact hc

/-- Quote/newline census of a subgraph header: exactly the two label
delimiters, provided the (unescaped) trace id carries none. -/
theorem subgraphLine_clean (t : CodemapTrace)
    (h : ∀ c ∈ t.id.data, c ≠ '"' ∧ c ≠ '\n') :
    (subgraphLine t).data.countP (fun c => c == '"') = 2
    ∧ (subgraphLine t).data.countP (fun c => c == '\n') = 0 := by
  constructor
  · simp only [subgraphLine, String.data_append, List.countP_append]
    rw [countP_char_zero (sanitize_ne _ (by decide) (by decide)),
      countP_char_zero (fun c hc => (h c hc).1),
      countP_char_zero (fun c hc => (escape_label_chars t.title c hc).1)]
    decide
  · simp only [subgraphLine, String.data_append, List.countP_append]
    rw [countP_char_zero (sanitize_ne _ (by decide) (by decide)),
      countP_char_zero (fun c hc => (h c hc).2),
      countP_char_zero (fun c hc => (escape_label_chars t.title c hc).2)]
    decide

/-- Quote/newline census of a node line: exactly the two label delimiters,
provided the (unescaped) file path carries none. -/
theorem nodeLine_clean (loc : CodemapLocation)
    (h : ∀ c ∈ loc.path.data, c ≠ '"' ∧ c ≠ '\n') :
    (nodeLine loc).data.countP (fun c => c == '"') = 2
    ∧ (nodeLine loc).data.countP (fun c => c == '\n') = 0 := by
  constructor
  · simp only [nodeLine, String.data_append, List.countP_append]
    rw [countP_char_zero (sanitize_ne _ (by decide) (by decide)),
      countP_char_zero (fun c hc => (escape_label_chars loc.title c hc).1),
      countP_char_zero (fun c hc => (h c (short_path_chars loc.path c hc)).1),
      countP_char_zero (fun c hc => (intRepr_chars loc.line_number c hc).1)]
    decide
  · simp only [nodeLine, String.data_append, List.countP_append]
    rw [countP_char_zero (sanitize_ne _ (by decide) (by decide)),
      countP_char_zero (fun c hc => (escape_label_chars loc.title c hc).2),
      countP_char_zero (fun c hc => (h c (short_path_chars loc.path c hc)).2),
      countP_char_zero (fun c hc => (intRepr_chars loc.line_number c hc).2)]
    decide

theorem solidEdgeLine_clean (a b : CodemapLocation) :
    (solidEdgeLine a b).data.countP (fun c => c == '"') = 0
    ∧ (solidEdgeLine a b).data.countP (fun c => c == '\n') = 0 := by
  constructor <;>
    (simp only [solidEdgeLine, String.data_append, List.countP_append]
     rw [countP_char_zero (sanitize_ne _ (by decide) (by decide)),
       countP_char_zero (sanitize_ne _ (by decide) (by decide))]
     decide)

theorem dashedEdgeLine_clean (a b : CodemapLocation) :
    (dashedEdgeLine a b).data.countP (fun c => c == '"') = 0
    ∧ (dashedEdgeLine a b).data.countP (fun c => c == '\n') = 0 := by
  constructor <;>
    (simp only [dashedEdgeLine, String.data_append, List.countP_append]
     rw [countP_char_zero (sanitize_ne _ (by decide) (by decide)),
       countP_char_zero (sanitize_ne _ (by decide) (by decide))]
     decide)

theorem traceColor_chars (j : Nat) :
    (∀ c ∈ (TRACE_COLORS.getD j ("", "")).1.data, c ≠ '"' ∧ c ≠ '\n')
    ∧ (∀ c ∈ (TRACE_COLORS.getD j ("", "")).2.data, c ≠ '"' ∧ c ≠ '\n') := by
  rcases Nat.lt_or_ge j 8 with h | h
  · interval_cases j <;> exact ⟨by decide, by decide⟩
  · rw [List.getD_eq_default _ _ (by simp [TRACE_COLORS]; omega)]
    exact ⟨by decide, by decide⟩

theorem styleLine_clean (i : Nat) (t : CodemapTrace) :
    (styleLine i t).data.countP (fun c => c == '"') = 0
    ∧ (styleLine i t).data.countP (fun c => c == '\n') = 0 := by
  constructor
  · simp only [styleLine, String.data_append, List.countP_append]
    rw [countP_char_zero (sanitize_ne _ (by decide) (by decide)),
      countP_char_zero (fun c hc => ((traceColor_chars _).1 c hc).1),
      countP_char_zero (fun c hc => ((traceColor_chars _).2 c hc).1)]
    decide
  · simp only [styleLine, String.data_append, List.countP_append]
    rw [countP_char_zero (sanitize_ne _ (by decide) (by decide)),
      countP_char_zero (fun c hc => ((traceColor_chars _).1 c hc).2),
      countP_char_zero (fun c hc => ((traceColor_chars _).2 c hc).2)]
    decide

end MermaidGenerator

/-- C6 counterexample: the claim says the output contains no raw quote
inside any label.  A labeled line whose label is quote-free carries exactly
the two quote delimiters (`subgraphLine_clean`), but with trace id `a"b`
the generated subgraph line — a line of the output — carries three quote
characters, i.e. a raw quote inside the label, because the trace id is
interpolated into the label without passing through `escape_label`. -/
theorem C6_raw_quote_in_label :
    MermaidGenerator.subgraphLine ⟨"a\"b", "Ti", "d", []⟩ ∈ MermaidGenerator.generateLines c6cm
    ∧ (MermaidGenerator.subgraphLine ⟨"a\"b", "Ti", "d", []⟩).data.countP
        (fun c => c == '"') = 3 := by
  refine ⟨by decide, by decide⟩

/-- C6 (amended): every non-alphanumeric character of a sanitized node or
group name is the fixed filler `'_'`; and when the trace ids and location
paths (the two raw, unescaped label ingredients) carry no quote and no
newline, every generated line contains at most the two label-delimiting
quotes and no raw newline.  The escaped components (trace and location
titles through `escape_label`) never contribute a quote or newline. -/
theorem C6_sanitize_and_labels (cm : Codemap)
    (hid : ∀ t ∈ cm.traces, ∀ c ∈ t.id.data, c ≠ '"' ∧ c ≠ '\n')
    (hpath : ∀ t ∈ cm.traces, ∀ loc ∈ t.locations, ∀ c ∈ loc.path.data, c ≠ '"' ∧ c ≠ '\n') :
    (∀ s : String, ∀ c ∈ (MermaidGenerator.sanitize_id s).data,
        c.isAlphanum = false → c = '_')
    ∧ ∀ line ∈ MermaidGenerator.generateLines cm,
        line.data.countP (fun c => c == '"') ≤ 2
        ∧ line.data.countP (fun c => c == '\n') = 0 := by
  constructor
  · intro s c hc hna
    rcases MermaidGenerator.sanitize_chars s c hc with h | h
    · rw [hna] at h
      cases h
    · exact h
  · intro line hline
    simp only [MermaidGenerator.generateLines, List.mem_append, List.mem_cons,
      List.not_mem_nil, or_false, List.mem_flatten, List.mem_map] at hline
    rcases hline with (((rfl | ⟨bl, ⟨t, ht, rfl⟩, hbl⟩) | hint) | rfl) | ⟨it, _, rfl⟩
    · exact ⟨by decide, by decide⟩
    · simp only [MermaidGenerator.traceBlock, List.mem_append, List.mem_cons,
        List.not_mem_nil, or_false, List.mem_map] at hbl
      rcases hbl with (((rfl | rfl) | ⟨loc, hloc, rfl⟩) | rfl) | ⟨ab, _, rfl⟩
      · exact ⟨by decide, by decide⟩
      · have := MermaidGenerator.subgraphLine_clean t (hid t ht)
        exact ⟨by omega, this.2⟩
      · have := MermaidGenerator.nodeLine_clean loc (hpath t ht loc hloc)
        exact ⟨by omega, this.2⟩
      · exact ⟨by decide, by decide⟩
      · have := MermaidGenerator.solidEdgeLine_clean ab.1 ab.2
        exact ⟨by omega, this.2⟩
    · obtain ⟨a, b, rfl⟩ := MermaidGenerator.interTraceEdges_all_dashed cm line hint
      have := MermaidGenerator.dashedEdgeLine_clean a b
      exact ⟨by omega, this.2⟩
    · exact ⟨by decide, by decide⟩
    · have := MermaidGenerator.styleLine_clean it.1 it.2
      exact ⟨by omega, this.2⟩

/-- Witness for C6 at a concrete clean codemap. -/
theorem C6_sanitize_and_labels_witness :
    (∀ s : String, ∀ c ∈ (MermaidGenerator.sanitize_id s).data,
        c.isAlphanum = false → c = '_')
    ∧ ∀ line ∈ MermaidGenerator.generateLines c5cm,
        line.data.countP (fun c => c == '"') ≤ 2
        ∧ line.data.countP (fun c => c == '\n') = 0 :=
  C6_sanitize_and_labels c5cm
    (by
      intro t ht
      simp [c5cm] at ht
      rcases ht with rfl | rfl <;> decide)
    (by
      intro t ht
      simp [c5cm] at ht
      rcases ht with rfl | rfl <;>
        (intro loc hloc
         simp at hloc
         rcases hloc with rfl | rfl <;> decide))

/-- C7 counterexample: the claim says each grouping block is labeled with
the trace's ordinal position.  The code labels it with the trace's `id`
field: for the single trace with id `"z"` the emitted subgraph label
starts `z. `, and no line of the output contains `1. ` (1-based ordinal)
or `0. ` (0-based ordinal). -/
theorem C7_label_not_ordinal :
    MermaidGenerator.subgraphLine c7trace ∈ MermaidGenerator.generateLines c7cm
    ∧ listHasSub "z. ".data (MermaidGenerator.subgraphLine c7trace).data = true
    ∧ (MermaidGenerator.generateLines c7cm).countP
        (fun line => listHasSub "1. ".data line.data) = 0
    ∧ (MermaidGenerator.generateLines c7cm).countP
        (fun line => listHasSub "0. ".data line.data) = 0 := by
  refine ⟨by decide, by decide, by decide, by decide⟩

/-- C7 (amended): the encoder emits, for each trace, a grouping block
labeled with the trace's identifier (its `id` field, not its ordinal
position) and escaped title, and within it one node per location labeled
with the escaped location title, the file's base name (`short_path`, the
final segment after the last `'/'`), and the line number. -/
theorem C7_block_and_node_labels (cm : Codemap) :
    ∀ t ∈ cm.traces,
      (MermaidGenerator.subgraphLine t ∈ MermaidGenerator.generateLines cm
        ∧ MermaidGenerator.subgraphLine t
            = "    subgraph " ++ MermaidGenerator.sanitize_id ("trace_" ++ t.id) ++ "[\""
              ++ t.id ++ ". " ++ MermaidGenerator.escape_label t.title ++ "\"]")
      ∧ ∀ loc ∈ t.locations,
          MermaidGenerator.nodeLine loc ∈ MermaidGenerator.generateLines cm
          ∧ MermaidGenerator.nodeLine loc
              = "        " ++ MermaidGenerator.sanitize_id ("loc_" ++ loc.id) ++ "[\""
                ++ MermaidGenerator.escape_label loc.title ++ "\\n"
                ++ MermaidGenerator.short_path loc.path ++ ":" ++ intRepr loc.line_number
                ++ "\"]" := by
  intro t ht
  have hmemBlock : ∀ x, x ∈ MermaidGenerator.traceBlock t →
      x ∈ MermaidGenerator.generateLines cm := by
    intro x hx
    have hfl : x ∈ (cm.traces.map MermaidGenerator.traceBlock).flatten :=
      List.mem_flatten.mpr ⟨_, List.mem_map_of_mem _ ht, hx⟩
    simp only [MermaidGenerator.generateLines, List.mem_append]
    exact Or.inl (Or.inl (Or.inl (Or.inr hfl)))
  refine ⟨⟨hmemBlock _ ?_, rfl⟩, ?_⟩
  · simp only [MermaidGenerator.traceBlock, List.mem_append, List.mem_cons,
      List.not_mem_nil, or_false, List.mem_map]
    exact Or.inl (Or.inl (Or.inl (Or.inr trivial)))
  · intro loc hloc
    refine ⟨hmemBlock _ ?_, rfl⟩
    simp only [MermaidGenerator.traceBlock, List.mem_append, List.mem_cons,
      List.not_mem_nil, or_false, List.mem_map]
    exact Or.inl (Or.inl (Or.inr ⟨loc, hloc, rfl⟩))

/-- Witness for C7 at the concrete one-trace codemap. -/
theorem C7_block_and_node_labels_witness :
    (MermaidGenerator.subgraphLine c7trace ∈ MermaidGenerator.generateLines c7cm
      ∧ MermaidGenerator.subgraphLine c7trace
          = "    subgraph " ++ MermaidGenerator.sanitize_id ("trace_" ++ c7trace.id) ++ "[\""
            ++ c7trace.id ++ ". " ++ MermaidGenerator.escape_label c7trace.title ++ "\"]")
    ∧ (MermaidGenerator.nodeLine c7loc ∈ MermaidGenerator.generateLines c7cm
      ∧ MermaidGenerator.nodeLine c7loc
          = "        " ++ MermaidGenerator.sanitize_id ("loc_" ++ c7loc.id) ++ "[\""
            ++ MermaidGenerator.escape_label c7loc.title ++ "\\n"
            ++ MermaidGenerator.short_path c7loc.path ++ ":" ++ intRepr c7loc.line_number
            ++ "\"]") :=
  ⟨(C7_block_and_node_labels c7cm c7trace (by simp [c7cm])).1,
   (C7_block_and_node_labels c7cm c7trace (by simp [c7cm])).2 c7loc (by simp [c7trace])⟩

end DeepWiki
